import Mathlib

/-!
# libhermit, `arch/aarch64/kernel/timer.c`

A shallow embedding of the aarch64 timer module (per-core logical clock,
periodic and dynamic-tick driving strategies, `timer_wait`, `timer_init`)
and the properties established about it.

Conventions of the embedding

* `uint64_t` values are natural numbers; every store of a computed 64-bit value
  is reduced modulo `2^64` (`WORD64`), every `uint32_t` store modulo `2^32`.
* The build-time switch `#ifdef DYNAMIC_TICKS` is the parameter `Mode`.
* `TIMER_FREQ` is a macro of a header that is not part of the module; it is the
  parameter `TIMER_FREQ : Nat` of every operation that uses it.
* A division or remainder whose divisor is zero has no defined result in C:
  `udiv` and `umod` return `none` there and the operation returns `none`.
* The state is the calling core's: `per_core(x)`, and the bare name `x` where
  the code uses it, is the field `x`.
* Calls that leave the module (register writes, barriers, log calls, the
  installation of the handler, the scheduler and work-queue calls) are appended
  to `trace` in program order.
-/

namespace Timer

/-- Number of values of a `uint64_t`. -/
def WORD64 : Nat := 2 ^ 64

/-- Number of values of a `uint32_t`. -/
def WORD32 : Nat := 2 ^ 32

/-- Build-time configuration: `periodic` is the build without `DYNAMIC_TICKS`,
`dynamic` the build with it. -/
inductive Mode where
  | periodic
  | dynamic
  deriving DecidableEq, Repr

/-- The three `LOG_INFO` call sites of the module. -/
inductive LogMsg where
  | counter_frequency_mhz
  | timer_frequency_khz
  | one_second_passed
  deriving DecidableEq, Repr

/-- The four places where `timer_wait` compares `per_core(timer_ticks)` with
`eticks`: the loop condition (line 121), the recheck in the loop (line 125),
the test of the other branch (line 130) and the test after the work-queue
drain (line 133). -/
inductive Site where
  | loop_head
  | recheck
  | before_drain
  | after_drain
  deriving DecidableEq, Repr

/-- Calls that leave the module, in the order the code makes them, and the
comparisons of `timer_wait` with the value of `timer_ticks` each one read. -/
inductive Event where
  | set_cntp_tval (v : Nat)
  | set_cntp_ctl (v : Nat)
  | rmb
  | log_info (msg : LogMsg) (arg : Nat)
  | irq_install_handler
  | check_workqueues
  | pause
  | set_timer (eticks : Nat)
  | reschedule
  | compare_ticks (site : Site) (v : Nat)
  deriving DecidableEq, Repr

/-- Status of the current task, as far as `timer_wait` distinguishes it. -/
inductive TaskStatus where
  | idle
  | other
  deriving DecidableEq, Repr

/-- Module state seen by one core, with the timer registers it programs. -/
structure TimerState where
  /-- The calling core's `timer_ticks` (`uint64_t`). -/
  timer_ticks : Nat
  /-- The calling core's `last_tick` (`uint64_t`, dynamic-tick build). -/
  last_tick : Nat
  /-- The static `boot_tick` (`uint64_t`, dynamic-tick build). -/
  boot_tick : Nat
  /-- The static `freq_hz` (`uint32_t`). -/
  freq_hz : Nat
  /-- Last value written to the compare interval register `CNTP_TVAL`. -/
  cntp_tval : Nat
  /-- Last value written to the control register `CNTP_CTL`. -/
  cntp_ctl : Nat
  /-- Whether `timer_handler` is installed on `INT_PPI_NSPHYS_TIMER`. -/
  handler_installed : Bool
  /-- The calling core's id, `CORE_ID`. -/
  core_id : Nat
  /-- Calls made so far, oldest first. -/
  trace : List Event
  deriving DecidableEq, Repr

/-- Unsigned division as C defines it: no result for a zero divisor. -/
def udiv (a b : Nat) : Option Nat :=
  if b = 0 then none else some (a / b)

/-- Unsigned remainder as C defines it: no result for a zero divisor. -/
def umod (a b : Nat) : Option Nat :=
  if b = 0 then none else some (a % b)

/-- Subtraction of two `uint64_t` values, `a - b` modulo `2^64`. -/
def sub64 (a b : Nat) : Nat :=
  (a % WORD64 + (WORD64 - b % WORD64)) % WORD64

/-- Addition of two `uint64_t` values, modulo `2^64`. -/
def add64 (a b : Nat) : Nat :=
  (a + b) % WORD64

/-- Multiplication of two `uint64_t` values, modulo `2^64`. -/
def mul64 (a b : Nat) : Nat :=
  (a * b) % WORD64

/-- Append one call to the trace. -/
def emit (e : Event) (s : TimerState) : TimerState :=
  { s with trace := s.trace ++ [e] }

/-- Register write `set_cntp_tval(v)`. -/
def set_cntp_tval (v : Nat) (s : TimerState) : TimerState :=
  emit (Event.set_cntp_tval v) { s with cntp_tval := v }

/-- Register write `set_cntp_ctl(v)`. -/
def set_cntp_ctl (v : Nat) (s : TimerState) : TimerState :=
  emit (Event.set_cntp_ctl v) { s with cntp_ctl := v }

/-- Source lines 52-56:
`set_cntp_tval(freq_hz / TIMER_FREQ); set_cntp_ctl(1);` -/
def restart_periodic_timer (TIMER_FREQ : Nat) (s : TimerState) : Option TimerState :=
  match udiv s.freq_hz TIMER_FREQ with
  | none => none
  | some interval => some (set_cntp_ctl 1 (set_cntp_tval interval s))

/-- Source lines 71-72, the local `diff_ticks` of `check_ticks` for the counter
reading `curr_tick`:
`(curr_tick - last_tick) * (uint64_t) TIMER_FREQ / freq_hz`. -/
def diff_ticks (TIMER_FREQ : Nat) (s : TimerState) (curr_tick : Nat) : Option Nat :=
  udiv (mul64 (sub64 curr_tick s.last_tick) (TIMER_FREQ % WORD64)) s.freq_hz

/-- Source lines 62-79 (dynamic-tick build). `curr_tick` is the value
`get_cntpct()` returns. -/
def check_ticks (TIMER_FREQ : Nat) (s : TimerState) (curr_tick : Nat) : Option TimerState :=
  if s.freq_hz = 0 then
    some s
  else
    let s1 := emit Event.rmb s
    match diff_ticks TIMER_FREQ s1 curr_tick with
    | none => none
    | some d =>
      if d > 0 then
        some (emit Event.rmb
          { s1 with timer_ticks := add64 s1.timer_ticks d, last_tick := curr_tick })
      else
        some s1

/-- Source lines 98-106, the heartbeat:
`if (timer_ticks % TIMER_FREQ == 0) LOG_INFO("One second has passed %d\n", CORE_ID);` -/
def heartbeat (TIMER_FREQ : Nat) (s : TimerState) : Option TimerState :=
  match umod s.timer_ticks TIMER_FREQ with
  | none => none
  | some r =>
    if r = 0 then some (emit (Event.log_info LogMsg.one_second_passed s.core_id) s)
    else some s

/-- Source lines 87-107. Without `DYNAMIC_TICKS` the handler increments
`timer_ticks` and restarts the periodic timer; with it, it stops the timer.
The heartbeat block follows in both builds. -/
def timer_handler (mode : Mode) (TIMER_FREQ : Nat) (s : TimerState) : Option TimerState :=
  match mode with
  | Mode.periodic =>
    match restart_periodic_timer TIMER_FREQ { s with timer_ticks := add64 s.timer_ticks 1 } with
    | none => none
    | some s1 => heartbeat TIMER_FREQ s1
  | Mode.dynamic =>
    heartbeat TIMER_FREQ (set_cntp_ctl 0 s)

/-- Source lines 145-163. `cntfrq` is the value `get_cntfrq()` returns and
`cntpct` the value `get_cntpct()` returns. The result is the new state and the
returned `int`. -/
def timer_init (mode : Mode) (TIMER_FREQ : Nat) (cntfrq cntpct : Nat) (s : TimerState) :
    Option (TimerState × Int) :=
  let s1 := emit (Event.log_info LogMsg.counter_frequency_mhz 1) s
  let s2 := { s1 with freq_hz := cntfrq % WORD32 }
  let s3 := emit (Event.log_info LogMsg.timer_frequency_khz (s2.freq_hz / 1000)) s2
  let s4 := emit Event.irq_install_handler { s3 with handler_installed := true }
  match mode with
  | Mode.dynamic =>
    some ({ s4 with boot_tick := cntpct, last_tick := cntpct }, 0)
  | Mode.periodic =>
    match restart_periodic_timer TIMER_FREQ s4 with
    | none => none
    | some s5 => some (s5, 0)

/-- Code outside the module that runs while `timer_wait` executes: the three
collaborators it calls and `PAUSE`, each an arbitrary change of the state, and
`irq`, whatever runs on the core between the read of `timer_ticks` that
computes `eticks` and the first comparison. -/
structure Extern where
  irq : TimerState → TimerState
  check_workqueues : TimerState → TimerState
  pause : TimerState → TimerState
  set_timer : Nat → TimerState → TimerState
  reschedule : TimerState → TimerState

/-- A call to a collaborator: it changes the state as it likes, and the call is
appended to the trace the caller had. -/
def call (e : Event) (f : TimerState → TimerState) (s : TimerState) : TimerState :=
  { f s with trace := s.trace ++ [e] }

/-- The value `timer_wait` compares against, source line 111:
`eticks = per_core(timer_ticks) + ticks`, with `ticks` an `unsigned int`. -/
def eticks_of (s : TimerState) (ticks : Nat) : Nat :=
  add64 s.timer_ticks (ticks % WORD32)

/-- One comparison of `per_core(timer_ticks)` with `eticks`: the value read is
recorded with the place of the comparison. -/
def compare (site : Site) (s : TimerState) : TimerState :=
  emit (Event.compare_ticks site s.timer_ticks) s

/-- Source lines 121-129, the loop of the idle task. One unit of `fuel` is one
evaluation of the loop condition. -/
def idle_loop (ext : Extern) (eticks : Nat) : Nat → TimerState → Option TimerState
  | 0, _ => none
  | fuel + 1, s =>
    let s1 := compare Site.loop_head s
    if s1.timer_ticks < eticks then
      let s2 := compare Site.recheck (call Event.check_workqueues ext.check_workqueues s1)
      if s2.timer_ticks ≥ eticks then
        some s2
      else
        idle_loop ext eticks fuel (call Event.pause ext.pause s2)
    else
      some s1

/-- Source lines 109-140. `ticks` is the `unsigned int` argument, `status` the
status of the current task. The result is the state at return and the returned
`int`; `none` when `fuel` evaluations of the loop condition do not end the
loop. -/
def timer_wait (ext : Extern) (fuel : Nat) (status : TaskStatus) (ticks : Nat)
    (s : TimerState) : Option (TimerState × Int) :=
  let eticks := eticks_of s ticks
  let s0 := { ext.irq s with trace := s.trace }
  match status with
  | TaskStatus.idle =>
    match idle_loop ext eticks fuel s0 with
    | none => none
    | some s1 => some (s1, 0)
  | TaskStatus.other =>
    let s1 := compare Site.before_drain s0
    if s1.timer_ticks < eticks then
      let s2 := compare Site.after_drain (call Event.check_workqueues ext.check_workqueues s1)
      if s2.timer_ticks < eticks then
        let s3 := call (Event.set_timer eticks) (ext.set_timer eticks) s2
        let s4 := call Event.reschedule ext.reschedule s3
        some (s4, 0)
      else
        some (s2, 0)
    else
      some (s1, 0)

/-- Collaborators of `timer_wait` that never decrease `timer_ticks`. -/
def Extern.nondecreasing (ext : Extern) : Prop :=
  (∀ s, s.timer_ticks ≤ (ext.irq s).timer_ticks) ∧
  (∀ s, s.timer_ticks ≤ (ext.check_workqueues s).timer_ticks) ∧
  (∀ s, s.timer_ticks ≤ (ext.pause s).timer_ticks) ∧
  (∀ e s, s.timer_ticks ≤ (ext.set_timer e s).timer_ticks) ∧
  (∀ s, s.timer_ticks ≤ (ext.reschedule s).timer_ticks)

/-- A core right after bring-up: all counters zero, nothing programmed. -/
def boot_state : TimerState :=
  { timer_ticks := 0, last_tick := 0, boot_tick := 0, freq_hz := 0, cntp_tval := 0,
    cntp_ctl := 0, handler_installed := false, core_id := 0, trace := [] }

/-- A running core whose `timer_ticks` holds the largest `uint64_t`, with the
counter frequency 62.5 MHz. -/
def wrap_state : TimerState :=
  { boot_state with timer_ticks := 18446744073709551615, freq_hz := 62500000 }

/-- The calls `check_ticks(); check_ticks(); ...` made one after the other, the
k-th of them reading the k-th element of `readings` from the counter. -/
def check_ticks_seq (TIMER_FREQ : Nat) : TimerState → List Nat → Option TimerState
  | s, [] => some s
  | s, c :: readings =>
    match check_ticks TIMER_FREQ s c with
    | none => none
    | some s' => check_ticks_seq TIMER_FREQ s' readings

/-- A core in the dynamic-tick build after `timer_init` read the counter
frequency 62.5 MHz and the counter value 0. -/
def running_state : TimerState :=
  { boot_state with freq_hz := 62500000, handler_installed := true }

/-- `k` runs of `timer_handler`, one after the other. -/
def timer_handler_seq (mode : Mode) (TIMER_FREQ : Nat) : Nat → TimerState → Option TimerState
  | 0, s => some s
  | k + 1, s =>
    match timer_handler mode TIMER_FREQ s with
    | none => none
    | some s' => timer_handler_seq mode TIMER_FREQ k s'

/-- Hardware model of the rate statements, periodic build: with the timer
enabled (`CNTP_CTL = 1`) and every firing re-arming the same interval
`CNTP_TVAL`, the interrupt fires once each time the interval elapses, that is
`elapsed / CNTP_TVAL` times while the counter advances by `elapsed`. A disabled
timer does not fire; the interval 0 has no defined number of firings. -/
def periodic_firings (s : TimerState) (elapsed : Nat) : Option Nat :=
  if s.cntp_ctl = 1 then udiv elapsed s.cntp_tval else some 0

/-- Periodic build: the handler runs of a stretch in which the counter advances
by `elapsed`. -/
def periodic_run (TIMER_FREQ : Nat) (s : TimerState) (elapsed : Nat) : Option TimerState :=
  match periodic_firings s elapsed with
  | none => none
  | some k => timer_handler_seq Mode.periodic TIMER_FREQ k s

/-- A dynamic-tick core at 62.5 MHz whose stored snapshot `last_tick` is 1000. -/
def snapshot_state : TimerState :=
  { running_state with last_tick := 1000 }

/-- What one iteration of the idle loop that goes round again records: the loop
condition read `vw.1`, then the work-queue drain, then the recheck read `vw.2`,
then `PAUSE`. -/
def idle_iteration (vw : Nat × Nat) : List Event :=
  [Event.compare_ticks Site.loop_head vw.1, Event.check_workqueues,
   Event.compare_ticks Site.recheck vw.2, Event.pause]

/-- Collaborators under which the clock advances by one tick during every
work-queue drain and is otherwise left alone. -/
def Extern.ticking : Extern :=
  ⟨id, fun s => { s with timer_ticks := s.timer_ticks + 1 }, id, fun _ => id, id⟩

/-- Whether a call is a `LOG_INFO`. -/
def is_log : Event → Bool
  | Event.log_info _ _ => true
  | _ => false

/-- The log messages of a trace, in order. -/
def log_messages (tr : List Event) : List Event :=
  tr.filter is_log

/-- Collaborators that change nothing. -/
def Extern.quiet : Extern :=
  ⟨id, id, id, fun _ => id, id⟩

/-- Collaborators whose work-queue drain reconciles the clock, running
`check_ticks` at the counter value `cntpct`; the others change nothing. -/
def Extern.reconciling (TIMER_FREQ cntpct : Nat) : Extern :=
  ⟨id, fun s => (check_ticks TIMER_FREQ s cntpct).getD s, id, fun _ => id, id⟩

/-- What `timer_wait` with the target `eticks` can record: a comparison, or a
call of `check_workqueues`, `PAUSE`, `set_timer(eticks)` or `reschedule`. A
read barrier, which every reconciliation with a known frequency issues, is not
among them. -/
def is_wait_event (eticks : Nat) : Event → Bool
  | Event.compare_ticks _ _ => true
  | Event.check_workqueues => true
  | Event.pause => true
  | Event.set_timer e => decide (e = eticks)
  | Event.reschedule => true
  | _ => false

/-- One iteration of the idle loop that goes round again (source lines 121-128
with the loop condition true and the recheck false): loop condition, work-queue
drain, recheck, `PAUSE`. The result is the state in which the loop condition is
evaluated next. -/
def idle_round (ext : Extern) (s : TimerState) : TimerState :=
  call Event.pause ext.pause
    (compare Site.recheck
      (call Event.check_workqueues ext.check_workqueues (compare Site.loop_head s)))

/-- A dynamic-tick core at 62.5 MHz that has counted 1000 ticks. -/
def ticked_state : TimerState :=
  { running_state with timer_ticks := 1000 }

/-! ## Arithmetic of the embedding -/

theorem udiv_of_pos (a b : Nat) (h : 0 < b) : udiv a b = some (a / b) := by
  unfold udiv
  rw [if_neg (Nat.pos_iff_ne_zero.mp h)]

theorem umod_of_pos (a b : Nat) (h : 0 < b) : umod a b = some (a % b) := by
  unfold umod
  rw [if_neg (Nat.pos_iff_ne_zero.mp h)]

theorem WORD64_pos : 0 < WORD64 := by
  unfold WORD64
  positivity

theorem sub64_of_le (a b : Nat) (hba : b ≤ a) (ha : a < WORD64) : sub64 a b = a - b := by
  unfold sub64
  have hb : b < WORD64 := lt_of_le_of_lt hba ha
  rw [Nat.mod_eq_of_lt ha, Nat.mod_eq_of_lt hb]
  have h1 : a + (WORD64 - b) = (a - b) + WORD64 := by omega
  rw [h1, Nat.add_mod_right, Nat.mod_eq_of_lt (by omega)]

theorem sub64_of_lt (a b : Nat) (hab : a < b) (hb : b < WORD64) :
    sub64 a b = WORD64 + a - b := by
  unfold sub64
  have ha : a < WORD64 := lt_trans hab hb
  rw [Nat.mod_eq_of_lt ha, Nat.mod_eq_of_lt hb]
  have h1 : a + (WORD64 - b) = WORD64 + a - b := by omega
  rw [h1, Nat.mod_eq_of_lt (by omega)]

theorem add64_of_lt (a b : Nat) (h : a + b < WORD64) : add64 a b = a + b := by
  unfold add64
  exact Nat.mod_eq_of_lt h

/-- The product `check_ticks` divides, when the counter has not gone backwards
and the product fits 64 bits. -/
theorem mul64_sub64_of_le (TIMER_FREQ last curr : Nat) (hle : last ≤ curr)
    (hcurr : curr < WORD64) (hmul : (curr - last) * TIMER_FREQ < WORD64) :
    mul64 (sub64 curr last) (TIMER_FREQ % WORD64) = (curr - last) * TIMER_FREQ := by
  rw [sub64_of_le curr last hle hcurr]
  unfold mul64
  rcases Nat.eq_zero_or_pos (curr - last) with h0 | hpos
  · rw [h0]
    simp
  · have hTF : TIMER_FREQ < WORD64 :=
      lt_of_le_of_lt (Nat.le_mul_of_pos_left TIMER_FREQ hpos) hmul
    rw [Nat.mod_eq_of_lt hTF, Nat.mod_eq_of_lt hmul]

/-! ## `check_ticks` -/

theorem check_ticks_of_freq_zero (TIMER_FREQ : Nat) (s : TimerState) (curr : Nat)
    (h : s.freq_hz = 0) : check_ticks TIMER_FREQ s curr = some s := by
  unfold check_ticks
  rw [if_pos h]

/-- Closed form of `check_ticks` once the frequency is known. -/
theorem check_ticks_of_freq_pos (TIMER_FREQ : Nat) (s : TimerState) (curr : Nat)
    (h : 0 < s.freq_hz) :
    check_ticks TIMER_FREQ s curr =
      some (if 0 < mul64 (sub64 curr s.last_tick) (TIMER_FREQ % WORD64) / s.freq_hz then
        emit Event.rmb { emit Event.rmb s with
          timer_ticks := add64 s.timer_ticks
            (mul64 (sub64 curr s.last_tick) (TIMER_FREQ % WORD64) / s.freq_hz),
          last_tick := curr }
      else emit Event.rmb s) := by
  unfold check_ticks diff_ticks
  rw [if_neg (Nat.pos_iff_ne_zero.mp h)]
  simp only [emit]
  rw [udiv_of_pos _ _ h]
  simp only [gt_iff_lt]
  split <;> rfl

theorem diff_ticks_of_freq_pos (TIMER_FREQ : Nat) (s : TimerState) (curr : Nat)
    (h : 0 < s.freq_hz) :
    diff_ticks TIMER_FREQ s curr =
      some (mul64 (sub64 curr s.last_tick) (TIMER_FREQ % WORD64) / s.freq_hz) := by
  unfold diff_ticks
  exact udiv_of_pos _ _ h

/-- Frame of `check_ticks`: in every state and for every reading it returns,
leaves `freq_hz`, both timer registers and the installed handler as they were,
and issues nothing but read barriers. -/
theorem check_ticks_frame (TIMER_FREQ : Nat) (t : TimerState) (c : Nat) :
    ∃ t', check_ticks TIMER_FREQ t c = some t' ∧
      t'.freq_hz = t.freq_hz ∧ t'.cntp_tval = t.cntp_tval ∧ t'.cntp_ctl = t.cntp_ctl ∧
      t'.handler_installed = t.handler_installed ∧
      ∃ barriers, t'.trace = t.trace ++ barriers ∧ ∀ e ∈ barriers, e = Event.rmb := by
  rcases Nat.eq_zero_or_pos t.freq_hz with h0 | hpos
  · refine ⟨t, check_ticks_of_freq_zero _ _ _ h0, rfl, rfl, rfl, rfl, [], by simp, ?_⟩
    intro e he
    cases he
  · refine ⟨_, check_ticks_of_freq_pos _ _ _ hpos, ?_⟩
    split
    · refine ⟨rfl, rfl, rfl, rfl, [Event.rmb, Event.rmb], by simp [emit], ?_⟩
      intro e he
      simpa using he
    · refine ⟨rfl, rfl, rfl, rfl, [Event.rmb], rfl, ?_⟩
      intro e he
      simpa using he

/-! ## `restart_periodic_timer`, `timer_handler`, `timer_init` -/

theorem restart_periodic_timer_of_pos (TIMER_FREQ : Nat) (s : TimerState)
    (h : 0 < TIMER_FREQ) :
    restart_periodic_timer TIMER_FREQ s =
      some (set_cntp_ctl 1 (set_cntp_tval (s.freq_hz / TIMER_FREQ) s)) := by
  unfold restart_periodic_timer
  rw [udiv_of_pos _ _ h]

theorem heartbeat_of_pos (TIMER_FREQ : Nat) (s : TimerState) (h : 0 < TIMER_FREQ) :
    heartbeat TIMER_FREQ s =
      some (if s.timer_ticks % TIMER_FREQ = 0 then
        emit (Event.log_info LogMsg.one_second_passed s.core_id) s else s) := by
  unfold heartbeat
  rw [umod_of_pos _ _ h]
  simp only
  split <;> rfl

/-- Closed form of the periodic handler. -/
theorem timer_handler_periodic_of_pos (TIMER_FREQ : Nat) (s : TimerState)
    (h : 0 < TIMER_FREQ) :
    timer_handler Mode.periodic TIMER_FREQ s =
      some (if add64 s.timer_ticks 1 % TIMER_FREQ = 0 then
        emit (Event.log_info LogMsg.one_second_passed s.core_id)
          (set_cntp_ctl 1 (set_cntp_tval (s.freq_hz / TIMER_FREQ)
            { s with timer_ticks := add64 s.timer_ticks 1 }))
      else
        set_cntp_ctl 1 (set_cntp_tval (s.freq_hz / TIMER_FREQ)
          { s with timer_ticks := add64 s.timer_ticks 1 })) := by
  unfold timer_handler
  simp only
  rw [restart_periodic_timer_of_pos _ _ h]
  simp only
  rw [heartbeat_of_pos _ _ h]
  rfl

/-- Closed form of the dynamic-tick handler. -/
theorem timer_handler_dynamic_of_pos (TIMER_FREQ : Nat) (s : TimerState)
    (h : 0 < TIMER_FREQ) :
    timer_handler Mode.dynamic TIMER_FREQ s =
      some (if s.timer_ticks % TIMER_FREQ = 0 then
        emit (Event.log_info LogMsg.one_second_passed s.core_id) (set_cntp_ctl 0 s)
      else set_cntp_ctl 0 s) := by
  unfold timer_handler
  simp only
  rw [heartbeat_of_pos _ _ h]
  rfl

/-- State in which `timer_init` installs the handler, before the mode-specific
part. -/
theorem timer_init_periodic_of_pos (TIMER_FREQ cntfrq cntpct : Nat) (s : TimerState)
    (h : 0 < TIMER_FREQ) :
    timer_init Mode.periodic TIMER_FREQ cntfrq cntpct s =
      some (set_cntp_ctl 1 (set_cntp_tval (cntfrq % WORD32 / TIMER_FREQ)
        (emit Event.irq_install_handler
          { emit (Event.log_info LogMsg.timer_frequency_khz (cntfrq % WORD32 / 1000))
              { emit (Event.log_info LogMsg.counter_frequency_mhz 1) s with
                freq_hz := cntfrq % WORD32 } with
            handler_installed := true })), 0) := by
  unfold timer_init
  simp only
  rw [restart_periodic_timer_of_pos _ _ h]
  rfl

theorem timer_init_dynamic_eq (TIMER_FREQ cntfrq cntpct : Nat) (s : TimerState) :
    timer_init Mode.dynamic TIMER_FREQ cntfrq cntpct s =
      some ({ emit Event.irq_install_handler
          { emit (Event.log_info LogMsg.timer_frequency_khz (cntfrq % WORD32 / 1000))
              { emit (Event.log_info LogMsg.counter_frequency_mhz 1) s with
                freq_hz := cntfrq % WORD32 } with
            handler_installed := true } with
        boot_tick := cntpct, last_tick := cntpct }, 0) := by
  rfl

/-! ## `timer_wait` -/

theorem idle_loop_nondecreasing (ext : Extern) (eticks : Nat) (h : ext.nondecreasing) :
    ∀ (fuel : Nat) (s s' : TimerState),
      idle_loop ext eticks fuel s = some s' → s.timer_ticks ≤ s'.timer_ticks := by
  intro fuel
  induction fuel with
  | zero =>
    intro s s' hs
    simp [idle_loop] at hs
  | succ n ih =>
    intro s s' hs
    have hcw := h.2.1 (compare Site.loop_head s)
    have hp := h.2.2.1
      (compare Site.recheck (call Event.check_workqueues ext.check_workqueues
        (compare Site.loop_head s)))
    simp only [idle_loop] at hs
    split at hs
    · split at hs
      · cases hs
        simpa [compare, emit, call] using hcw
      · have h3 := ih _ _ hs
        simp only [compare, emit, call] at h3 hcw hp ⊢
        omega
    · cases hs
      simp [compare, emit]

theorem timer_wait_nondecreasing (ext : Extern) (h : ext.nondecreasing) (fuel : Nat)
    (status : TaskStatus) (ticks : Nat) (s s' : TimerState) (r : Int)
    (hs : timer_wait ext fuel status ticks s = some (s', r)) :
    s.timer_ticks ≤ s'.timer_ticks := by
  have hirq := h.1 s
  cases status with
  | idle =>
    simp only [timer_wait] at hs
    split at hs
    · cases hs
    · rename_i s1 h1
      cases hs
      have h2 := idle_loop_nondecreasing ext _ h _ _ _ h1
      simp only at h2
      omega
  | other =>
    simp only [timer_wait] at hs
    have hcw := h.2.1 (compare Site.before_drain { ext.irq s with trace := s.trace })
    have hst := h.2.2.2.1 (eticks_of s ticks)
      (compare Site.after_drain (call Event.check_workqueues ext.check_workqueues
        (compare Site.before_drain { ext.irq s with trace := s.trace })))
    have hrs := h.2.2.2.2
      (call (Event.set_timer (eticks_of s ticks)) (ext.set_timer (eticks_of s ticks))
        (compare Site.after_drain (call Event.check_workqueues ext.check_workqueues
          (compare Site.before_drain { ext.irq s with trace := s.trace }))))
    split at hs
    · split at hs
      · cases hs
        simp only [compare, emit, call] at hcw hst hrs ⊢
        omega
      · cases hs
        simp only [compare, emit, call] at hcw ⊢
        omega
    · cases hs
      simp only [compare, emit]
      omega

/-! ## C1: monotonicity of the logical clock -/

/-- C1, the claim as stated fails: in the periodic build, one run of
`timer_handler` on a core whose `timer_ticks` is `2^64 - 1` stores `0`, a
smaller value. -/
theorem timer_handler_decreases_timer_ticks_at_wrap :
    wrap_state.timer_ticks = 18446744073709551615 ∧
    ∃ s', timer_handler Mode.periodic 100 wrap_state = some s' ∧
      s'.timer_ticks = 0 ∧ s'.timer_ticks < wrap_state.timer_ticks := by
  refine ⟨rfl, ?_⟩
  rw [timer_handler_periodic_of_pos 100 wrap_state (by decide)]
  refine ⟨_, rfl, ?_, ?_⟩ <;> decide

/-- C1, amended: every operation of the module returns, and leaves the calling
core's `timer_ticks` at least as large as it was, as long as the 64-bit sum it
stores does not wrap. `check_ticks` is non-decreasing when
`timer_ticks + diff_ticks < 2^64`, the periodic `timer_handler` when
`timer_ticks + 1 < 2^64`; the dynamic-tick `timer_handler` and `timer_init`
leave `timer_ticks` unchanged; `timer_wait` writes nothing itself, so it is
non-decreasing whenever the collaborators it calls are. -/
theorem timer_ticks_nondecreasing_without_wrap (TIMER_FREQ : Nat) (s : TimerState)
    (hTF : 0 < TIMER_FREQ) :
    (∀ curr, ∃ s', check_ticks TIMER_FREQ s curr = some s' ∧
      ((∀ d, diff_ticks TIMER_FREQ s curr = some d → s.timer_ticks + d < WORD64) →
        s.timer_ticks ≤ s'.timer_ticks)) ∧
    (∃ s', timer_handler Mode.periodic TIMER_FREQ s = some s' ∧
      (s.timer_ticks + 1 < WORD64 → s.timer_ticks ≤ s'.timer_ticks)) ∧
    (∃ s', timer_handler Mode.dynamic TIMER_FREQ s = some s' ∧
      s'.timer_ticks = s.timer_ticks) ∧
    (∀ mode cntfrq cntpct, ∃ s', timer_init mode TIMER_FREQ cntfrq cntpct s = some (s', 0) ∧
      s'.timer_ticks = s.timer_ticks) ∧
    (∀ ext fuel status ticks s' r, Extern.nondecreasing ext →
      timer_wait ext fuel status ticks s = some (s', r) → s.timer_ticks ≤ s'.timer_ticks) := by
  refine ⟨?_, ?_, ?_, ?_, ?_⟩
  · intro curr
    rcases Nat.eq_zero_or_pos s.freq_hz with h0 | hpos
    · exact ⟨s, check_ticks_of_freq_zero _ _ _ h0, fun _ => le_refl _⟩
    · refine ⟨_, check_ticks_of_freq_pos _ _ _ hpos, ?_⟩
      intro hd
      have hlt := hd _ (diff_ticks_of_freq_pos TIMER_FREQ s curr hpos)
      split
      · simp only [emit]
        rw [add64_of_lt _ _ hlt]
        exact Nat.le_add_right _ _
      · simp [emit]
  · refine ⟨_, timer_handler_periodic_of_pos _ _ hTF, ?_⟩
    intro hlt
    split <;>
      · simp only [emit, set_cntp_ctl, set_cntp_tval]
        rw [add64_of_lt _ _ hlt]
        exact Nat.le_add_right _ _
  · refine ⟨_, timer_handler_dynamic_of_pos _ _ hTF, ?_⟩
    split <;> rfl
  · intro mode cntfrq cntpct
    cases mode with
    | periodic => exact ⟨_, timer_init_periodic_of_pos _ _ _ _ hTF, rfl⟩
    | dynamic => exact ⟨_, timer_init_dynamic_eq _ _ _ _, rfl⟩
  · intro ext fuel status ticks s' r hext hs
    exact timer_wait_nondecreasing ext hext fuel status ticks s s' r hs

/-- C1, the amended statement at a core with `timer_ticks = 0` and
`TIMER_FREQ = 100`: the periodic handler returns and does not decrease
`timer_ticks`. -/
theorem timer_ticks_nondecreasing_without_wrap_witness :
    0 < 100 ∧
    ∃ s', timer_handler Mode.periodic 100 boot_state = some s' ∧
      (boot_state.timer_ticks + 1 < WORD64 → boot_state.timer_ticks ≤ s'.timer_ticks) :=
  ⟨by decide, (timer_ticks_nondecreasing_without_wrap 100 boot_state (by decide)).2.1⟩

/-! ## C2: the reconciliation formula of `check_ticks` -/

/-- C2: with `freq_hz > 0`, a counter reading `curr` (a `uint64_t`) not below
`last_tick` and `(curr - last_tick) * TIMER_FREQ < 2^64`, let
`d = (curr - last_tick) * TIMER_FREQ / freq_hz`. `check_ticks` returns; if
`d > 0` it stores `timer_ticks + d` (the 64-bit sum, which is the exact sum
whenever that is below `2^64`) and `last_tick = curr`; if `d = 0` both are
unchanged. In no case, these hypotheses or not, are `freq_hz` or the timer
registers written: the only calls made are read barriers. -/
theorem check_ticks_reconciliation (TIMER_FREQ : Nat) (s : TimerState) (curr : Nat)
    (hf : 0 < s.freq_hz) (hle : s.last_tick ≤ curr) (hcurr : curr < WORD64)
    (hmul : (curr - s.last_tick) * TIMER_FREQ < WORD64) :
    (∃ s', check_ticks TIMER_FREQ s curr = some s' ∧
      (0 < (curr - s.last_tick) * TIMER_FREQ / s.freq_hz →
        s'.timer_ticks = (s.timer_ticks + (curr - s.last_tick) * TIMER_FREQ / s.freq_hz) % WORD64 ∧
        (s.timer_ticks + (curr - s.last_tick) * TIMER_FREQ / s.freq_hz < WORD64 →
          s'.timer_ticks = s.timer_ticks + (curr - s.last_tick) * TIMER_FREQ / s.freq_hz) ∧
        s'.last_tick = curr) ∧
      ((curr - s.last_tick) * TIMER_FREQ / s.freq_hz = 0 →
        s'.timer_ticks = s.timer_ticks ∧ s'.last_tick = s.last_tick)) ∧
    (∀ (t : TimerState) (c : Nat), ∃ t', check_ticks TIMER_FREQ t c = some t' ∧
      t'.freq_hz = t.freq_hz ∧ t'.cntp_tval = t.cntp_tval ∧ t'.cntp_ctl = t.cntp_ctl ∧
      t'.handler_installed = t.handler_installed ∧
      ∃ barriers, t'.trace = t.trace ++ barriers ∧ ∀ e ∈ barriers, e = Event.rmb) := by
  refine ⟨⟨_, check_ticks_of_freq_pos _ _ _ hf, ?_⟩, check_ticks_frame TIMER_FREQ⟩
  rw [mul64_sub64_of_le TIMER_FREQ s.last_tick curr hle hcurr hmul]
  by_cases hd : 0 < (curr - s.last_tick) * TIMER_FREQ / s.freq_hz
  · rw [if_pos hd]
    exact ⟨fun _ => ⟨rfl, fun hlt => add64_of_lt _ _ hlt, rfl⟩, fun h0 => by omega⟩
  · rw [if_neg hd]
    exact ⟨fun h => absurd h hd, fun _ => ⟨rfl, rfl⟩⟩

/-- C2 at `TIMER_FREQ = 100`, `freq_hz = 62500000`, `last_tick = 1000`,
`timer_ticks = 0` and the reading `1251000`, two logical ticks later. -/
theorem check_ticks_reconciliation_witness :
    0 < snapshot_state.freq_hz ∧ snapshot_state.last_tick ≤ 1251000 ∧ 1251000 < WORD64 ∧
    (1251000 - snapshot_state.last_tick) * 100 < WORD64 ∧
    (1251000 - snapshot_state.last_tick) * 100 / snapshot_state.freq_hz = 2 ∧
    ∃ s', check_ticks 100 snapshot_state 1251000 = some s' ∧
      (0 < (1251000 - snapshot_state.last_tick) * 100 / snapshot_state.freq_hz →
        s'.timer_ticks =
          (snapshot_state.timer_ticks +
            (1251000 - snapshot_state.last_tick) * 100 / snapshot_state.freq_hz) % WORD64 ∧
        (snapshot_state.timer_ticks +
            (1251000 - snapshot_state.last_tick) * 100 / snapshot_state.freq_hz < WORD64 →
          s'.timer_ticks = snapshot_state.timer_ticks +
            (1251000 - snapshot_state.last_tick) * 100 / snapshot_state.freq_hz) ∧
        s'.last_tick = 1251000) ∧
      ((1251000 - snapshot_state.last_tick) * 100 / snapshot_state.freq_hz = 0 →
        s'.timer_ticks = snapshot_state.timer_ticks ∧
        s'.last_tick = snapshot_state.last_tick) :=
  ⟨by decide, by decide, by decide, by decide, by decide,
    (check_ticks_reconciliation 100 snapshot_state 1251000 (by decide) (by decide) (by decide)
      (by decide)).1⟩

/-! ## C3: drift of repeated reconciliation -/

theorem chain_le_getLastD : ∀ (cs : List Nat) (c : Nat),
    List.Chain (· ≤ ·) c cs → c ≤ cs.getLastD c := by
  intro cs
  induction cs with
  | nil =>
    intro c _
    exact le_refl _
  | cons a as ih =>
    intro c h
    rw [List.chain_cons] at h
    have h2 := ih a h.2
    simp only [List.getLastD_cons]
    exact le_trans h.1 h2

/-- Invariant of a run of reconciliations that started at the snapshot `c0`:
the clock never runs ahead of the counter, and after `j` readings it is behind
the last reading `c` by less than `j` logical ticks. -/
theorem check_ticks_seq_invariant (TIMER_FREQ f c0 : Nat) (hf : 0 < f) :
    ∀ (cs : List Nat) (s : TimerState) (c j : Nat),
      s.freq_hz = f → List.Chain (· ≤ ·) c cs → c0 ≤ s.last_tick → s.last_tick ≤ c →
      cs.getLastD c < WORD64 → (cs.getLastD c - c0) * TIMER_FREQ < WORD64 →
      s.timer_ticks * f ≤ (s.last_tick - c0) * TIMER_FREQ →
      (c - c0) * TIMER_FREQ ≤ s.timer_ticks * f + j * (f - 1) →
      ∃ s', check_ticks_seq TIMER_FREQ s cs = some s' ∧ s'.freq_hz = f ∧
        c0 ≤ s'.last_tick ∧ s'.last_tick ≤ cs.getLastD c ∧
        s'.timer_ticks * f ≤ (s'.last_tick - c0) * TIMER_FREQ ∧
        (cs.getLastD c - c0) * TIMER_FREQ ≤ s'.timer_ticks * f + (j + cs.length) * (f - 1) := by
  intro cs
  induction cs with
  | nil =>
    intro s c j hfreq _ h0 hlc _ _ hlow hup
    exact ⟨s, rfl, hfreq, h0, hlc, hlow, by simpa using hup⟩
  | cons a as ih =>
    intro s c j hfreq hchain h0 hlc hlast hmul hlow hup
    rw [List.chain_cons] at hchain
    obtain ⟨hca, hchain'⟩ := hchain
    simp only [List.getLastD_cons] at hlast hmul ⊢
    have haLast : a ≤ as.getLastD a := chain_le_getLastD as a hchain'
    have hla : s.last_tick ≤ a := le_trans hlc hca
    have haW : a < WORD64 := lt_of_le_of_lt haLast hlast
    -- the elapsed product, split at the stored snapshot
    have hsplit : (a - c0) * TIMER_FREQ =
        (s.last_tick - c0) * TIMER_FREQ + (a - s.last_tick) * TIMER_FREQ := by
      rw [← Nat.add_mul]
      congr 1
      omega
    have hmono : (a - c0) * TIMER_FREQ ≤ (as.getLastD a - c0) * TIMER_FREQ :=
      Nat.mul_le_mul_right _ (by omega)
    have hmono2 : (s.last_tick - c0) * TIMER_FREQ ≤ (c - c0) * TIMER_FREQ :=
      Nat.mul_le_mul_right _ (by omega)
    have hB : (a - s.last_tick) * TIMER_FREQ < WORD64 := by omega
    have hdm := Nat.div_add_mod ((a - s.last_tick) * TIMER_FREQ) f
    have hr : (a - s.last_tick) * TIMER_FREQ % f < f := Nat.mod_lt _ hf
    have hj : (j + 1) * (f - 1) = j * (f - 1) + (f - 1) := by
      rw [Nat.add_mul, Nat.one_mul]
    have hlen : (j + (as.length + 1)) = (j + 1) + as.length := by omega
    have hfpos : 0 < s.freq_hz := by
      rw [hfreq]
      exact hf
    have hstep := check_ticks_of_freq_pos TIMER_FREQ s a hfpos
    rw [mul64_sub64_of_le TIMER_FREQ s.last_tick a hla haW hB, hfreq] at hstep
    simp only [check_ticks_seq, hstep, List.length_cons, hlen]
    by_cases hd : 0 < (a - s.last_tick) * TIMER_FREQ / f
    · rw [if_pos hd]
      have hmul_d : (s.timer_ticks + (a - s.last_tick) * TIMER_FREQ / f) * f =
          s.timer_ticks * f + f * ((a - s.last_tick) * TIMER_FREQ / f) := by
        rw [Nat.add_mul, Nat.mul_comm f]
      have hsum : s.timer_ticks + (a - s.last_tick) * TIMER_FREQ / f < WORD64 := by
        have h1 : s.timer_ticks + (a - s.last_tick) * TIMER_FREQ / f ≤
            (s.timer_ticks + (a - s.last_tick) * TIMER_FREQ / f) * f :=
          Nat.le_mul_of_pos_right _ hf
        omega
      apply ih _ a (j + 1)
      · exact hfreq
      · exact hchain'
      · show c0 ≤ a
        omega
      · exact le_refl a
      · exact hlast
      · exact hmul
      · show add64 s.timer_ticks ((a - s.last_tick) * TIMER_FREQ / f) * f ≤ (a - c0) * TIMER_FREQ
        rw [add64_of_lt _ _ hsum]
        omega
      · show (a - c0) * TIMER_FREQ ≤
          add64 s.timer_ticks ((a - s.last_tick) * TIMER_FREQ / f) * f + (j + 1) * (f - 1)
        rw [add64_of_lt _ _ hsum]
        omega
    · rw [if_neg hd]
      have hd0 : (a - s.last_tick) * TIMER_FREQ / f = 0 := Nat.eq_zero_of_not_pos hd
      rw [hd0, Nat.mul_zero, Nat.zero_add] at hdm
      apply ih _ a (j + 1)
      · exact hfreq
      · exact hchain'
      · exact h0
      · exact hla
      · exact hlast
      · exact hmul
      · exact hlow
      · show (a - c0) * TIMER_FREQ ≤ s.timer_ticks * f + (j + 1) * (f - 1)
        omega

/-- Carry-forward of a run of reconciliations from the snapshot `c0`: only a
call that advances the clock drops anything, and it drops less than one tick,
so what the stored snapshot is worth is below twice the tick count, and the
counter advance since the snapshot is worth less than one tick. -/
theorem check_ticks_seq_carry (TIMER_FREQ f c0 : Nat) (hf : 0 < f) :
    ∀ (cs : List Nat) (s : TimerState) (c : Nat),
      s.freq_hz = f → List.Chain (· ≤ ·) c cs → c0 ≤ s.last_tick → s.last_tick ≤ c →
      cs.getLastD c < WORD64 → (cs.getLastD c - c0) * TIMER_FREQ < WORD64 →
      s.timer_ticks * f ≤ (s.last_tick - c0) * TIMER_FREQ →
      (s.last_tick - c0) * TIMER_FREQ ≤ s.timer_ticks * f + s.timer_ticks * (f - 1) →
      (c - s.last_tick) * TIMER_FREQ < f →
      ∃ s', check_ticks_seq TIMER_FREQ s cs = some s' ∧
        c0 ≤ s'.last_tick ∧ s'.last_tick ≤ cs.getLastD c ∧
        (s'.last_tick - c0) * TIMER_FREQ ≤ s'.timer_ticks * f + s'.timer_ticks * (f - 1) ∧
        (cs.getLastD c - s'.last_tick) * TIMER_FREQ < f := by
  intro cs
  induction cs with
  | nil =>
    intro s c _ _ h0 hlc _ _ _ hup hpend
    exact ⟨s, rfl, h0, hlc, hup, hpend⟩
  | cons a as ih =>
    intro s c hfreq hchain h0 hlc hlast hmul hlow hup _
    rw [List.chain_cons] at hchain
    obtain ⟨hca, hchain'⟩ := hchain
    simp only [List.getLastD_cons] at hlast hmul ⊢
    have haLast : a ≤ as.getLastD a := chain_le_getLastD as a hchain'
    have hla : s.last_tick ≤ a := le_trans hlc hca
    have haW : a < WORD64 := lt_of_le_of_lt haLast hlast
    have hsplit : (a - c0) * TIMER_FREQ =
        (s.last_tick - c0) * TIMER_FREQ + (a - s.last_tick) * TIMER_FREQ := by
      rw [← Nat.add_mul]
      congr 1
      omega
    have hmono : (a - c0) * TIMER_FREQ ≤ (as.getLastD a - c0) * TIMER_FREQ :=
      Nat.mul_le_mul_right _ (by omega)
    have hB : (a - s.last_tick) * TIMER_FREQ < WORD64 := by omega
    have hdm := Nat.div_add_mod ((a - s.last_tick) * TIMER_FREQ) f
    have hr : (a - s.last_tick) * TIMER_FREQ % f < f := Nat.mod_lt _ hf
    have hfpos : 0 < s.freq_hz := by
      rw [hfreq]
      exact hf
    have hstep := check_ticks_of_freq_pos TIMER_FREQ s a hfpos
    rw [mul64_sub64_of_le TIMER_FREQ s.last_tick a hla haW hB, hfreq] at hstep
    simp only [check_ticks_seq, hstep]
    by_cases hd : 0 < (a - s.last_tick) * TIMER_FREQ / f
    · rw [if_pos hd]
      have hmul_d : (s.timer_ticks + (a - s.last_tick) * TIMER_FREQ / f) * f =
          s.timer_ticks * f + f * ((a - s.last_tick) * TIMER_FREQ / f) := by
        rw [Nat.add_mul, Nat.mul_comm f]
      have hmul_d1 : (s.timer_ticks + (a - s.last_tick) * TIMER_FREQ / f) * (f - 1) =
          s.timer_ticks * (f - 1) + (a - s.last_tick) * TIMER_FREQ / f * (f - 1) :=
        Nat.add_mul _ _ _
      have hdrop : f - 1 ≤ (a - s.last_tick) * TIMER_FREQ / f * (f - 1) :=
        Nat.le_mul_of_pos_left _ hd
      have hsum : s.timer_ticks + (a - s.last_tick) * TIMER_FREQ / f < WORD64 := by
        have h1 : s.timer_ticks + (a - s.last_tick) * TIMER_FREQ / f ≤
            (s.timer_ticks + (a - s.last_tick) * TIMER_FREQ / f) * f :=
          Nat.le_mul_of_pos_right _ hf
        omega
      apply ih _ a
      · exact hfreq
      · exact hchain'
      · show c0 ≤ a
        omega
      · exact le_refl a
      · exact hlast
      · exact hmul
      · show add64 s.timer_ticks ((a - s.last_tick) * TIMER_FREQ / f) * f ≤ (a - c0) * TIMER_FREQ
        rw [add64_of_lt _ _ hsum]
        omega
      · show (a - c0) * TIMER_FREQ ≤
          add64 s.timer_ticks ((a - s.last_tick) * TIMER_FREQ / f) * f +
            add64 s.timer_ticks ((a - s.last_tick) * TIMER_FREQ / f) * (f - 1)
        rw [add64_of_lt _ _ hsum]
        omega
      · show (a - a) * TIMER_FREQ < f
        rw [Nat.sub_self, Nat.zero_mul]
        exact hf
    · rw [if_neg hd]
      have hd0 : (a - s.last_tick) * TIMER_FREQ / f = 0 := Nat.eq_zero_of_not_pos hd
      rw [hd0, Nat.mul_zero, Nat.zero_add] at hdm
      apply ih _ a
      · exact hfreq
      · exact hchain'
      · exact h0
      · exact hla
      · exact hlast
      · exact hmul
      · exact hlow
      · exact hup
      · show (a - s.last_tick) * TIMER_FREQ < f
        omega

/-- C3, the claim as stated fails: at 62.5 MHz with `TIMER_FREQ = 100` (625000
counter ticks per logical tick), three reconciliations 1249999 counter ticks
apart credit one logical tick each, 3 in all, while the exact value at the last
reading is 5: a drift of 2. -/
theorem check_ticks_seq_drifts_by_two :
    running_state.timer_ticks = 0 ∧ running_state.last_tick = 0 ∧
    (∃ s', check_ticks_seq 100 running_state [1249999, 2499998, 3749997] = some s' ∧
      s'.timer_ticks = 3) ∧
    (3749997 - 0) * 100 / running_state.freq_hz = 5 := by
  refine ⟨rfl, rfl, ⟨_, rfl, ?_⟩, ?_⟩ <;> decide

/-- C3, amended: for every `freq_hz > 0`, every snapshot `last_tick = c0` with
`timer_ticks = 0` and every non-decreasing list of `n` counter readings
`c0 ≤ c1 ≤ ... ≤ cn` (`cn < 2^64`, `(cn - c0) * TIMER_FREQ < 2^64`), calling
`check_ticks` once at each reading returns, and `timer_ticks` never exceeds the
exact value `(cn - c0) * TIMER_FREQ / freq_hz`. It falls short of it only by
what the calls that advanced the clock dropped, less than one tick each, while
a call that credits nothing drops nothing (the counter advance stays with the
old snapshot for the next call): the shortfall is at most `n - 1` and at most
`timer_ticks` itself, so the exact value is at most `2 * timer_ticks` however
many readings there are, and within 1 when there are at most two. -/
theorem check_ticks_seq_drift_bound (TIMER_FREQ : Nat) (s : TimerState) (readings : List Nat)
    (hf : 0 < s.freq_hz) (h0 : s.timer_ticks = 0)
    (hchain : List.Chain (· ≤ ·) s.last_tick readings)
    (hlast : readings.getLastD s.last_tick < WORD64)
    (hmul : (readings.getLastD s.last_tick - s.last_tick) * TIMER_FREQ < WORD64) :
    ∃ s', check_ticks_seq TIMER_FREQ s readings = some s' ∧
      s'.timer_ticks ≤ (readings.getLastD s.last_tick - s.last_tick) * TIMER_FREQ / s.freq_hz ∧
      (readings.getLastD s.last_tick - s.last_tick) * TIMER_FREQ / s.freq_hz ≤
        s'.timer_ticks + (readings.length - 1) ∧
      (readings.getLastD s.last_tick - s.last_tick) * TIMER_FREQ / s.freq_hz ≤
        s'.timer_ticks + s'.timer_ticks ∧
      (readings.length ≤ 2 →
        (readings.getLastD s.last_tick - s.last_tick) * TIMER_FREQ / s.freq_hz ≤
          s'.timer_ticks + 1) := by
  obtain ⟨s', hrun, _, hc0, hle, hlow, hup⟩ :=
    check_ticks_seq_invariant TIMER_FREQ s.freq_hz s.last_tick hf readings s s.last_tick 0 rfl
      hchain (le_refl _) (le_refl _) hlast hmul (by rw [h0]; simp) (by simp)
  obtain ⟨s2, hrun2, _, hle2, hcarry, hpend⟩ :=
    check_ticks_seq_carry TIMER_FREQ s.freq_hz s.last_tick hf readings s s.last_tick rfl
      hchain (le_refl _) (le_refl _) hlast hmul (by rw [h0]; simp) (by simp)
      (by rw [Nat.sub_self, Nat.zero_mul]; exact hf)
  have hs2 : s2 = s' := Option.some.inj (hrun2.symm.trans hrun)
  rw [hs2] at hle2 hcarry hpend
  have hmono : (s'.last_tick - s.last_tick) * TIMER_FREQ ≤
      (readings.getLastD s.last_tick - s.last_tick) * TIMER_FREQ :=
    Nat.mul_le_mul_right _ (by omega)
  have hlower : s'.timer_ticks ≤
      (readings.getLastD s.last_tick - s.last_tick) * TIMER_FREQ / s.freq_hz :=
    (Nat.le_div_iff_mul_le hf).mpr (le_trans hlow hmono)
  have hupper : (readings.getLastD s.last_tick - s.last_tick) * TIMER_FREQ / s.freq_hz ≤
      s'.timer_ticks + (readings.length - 1) := by
    rw [Nat.zero_add] at hup
    rcases Nat.eq_zero_or_pos readings.length with hn | hn
    · rw [hn, Nat.zero_mul, Nat.add_zero] at hup
      rw [hn, Nat.zero_sub, Nat.add_zero]
      exact Nat.div_le_of_le_mul (by rw [Nat.mul_comm s.freq_hz]; exact hup)
    · have hlt : (readings.getLastD s.last_tick - s.last_tick) * TIMER_FREQ <
          (s'.timer_ticks + readings.length) * s.freq_hz := by
        have h1 : readings.length * (s.freq_hz - 1) < readings.length * s.freq_hz :=
          Nat.mul_lt_mul_of_pos_left (by omega) hn
        rw [Nat.add_mul]
        omega
      have h2 := (Nat.div_lt_iff_lt_mul hf).mpr hlt
      omega
  have htwice : (readings.getLastD s.last_tick - s.last_tick) * TIMER_FREQ / s.freq_hz ≤
      s'.timer_ticks + s'.timer_ticks := by
    have hsplit : (readings.getLastD s.last_tick - s.last_tick) * TIMER_FREQ =
        (s'.last_tick - s.last_tick) * TIMER_FREQ +
          (readings.getLastD s.last_tick - s'.last_tick) * TIMER_FREQ := by
      rw [← Nat.add_mul]
      congr 1
      omega
    have hle1 : s'.timer_ticks * (s.freq_hz - 1) ≤ s'.timer_ticks * s.freq_hz :=
      Nat.mul_le_mul_left _ (Nat.sub_le _ _)
    have hlt : (readings.getLastD s.last_tick - s.last_tick) * TIMER_FREQ <
        (s'.timer_ticks + s'.timer_ticks + 1) * s.freq_hz := by
      rw [Nat.add_mul, Nat.add_mul, Nat.one_mul]
      omega
    have h2 := (Nat.div_lt_iff_lt_mul hf).mpr hlt
    omega
  exact ⟨s', hrun, hlower, hupper, htwice, fun h2 => by omega⟩

/-- C3, the amended statement on a run that shows the carry-forward: at
62.5 MHz (625000 counter ticks per logical tick) the readings 400000, 800000
and 1200000 credit nothing, one tick and nothing, and `timer_ticks` ends at 1,
the exact value. -/
theorem check_ticks_seq_drift_bound_witness :
    ∃ s', check_ticks_seq 100 running_state [400000, 800000, 1200000] = some s' ∧
      s'.timer_ticks = 1 ∧ s'.last_tick = 800000 ∧
      s'.timer_ticks ≤
        ([400000, 800000, 1200000].getLastD running_state.last_tick -
          running_state.last_tick) * 100 / running_state.freq_hz ∧
      ([400000, 800000, 1200000].getLastD running_state.last_tick -
          running_state.last_tick) * 100 / running_state.freq_hz ≤
        s'.timer_ticks + ([400000, 800000, 1200000].length - 1) ∧
      ([400000, 800000, 1200000].getLastD running_state.last_tick -
          running_state.last_tick) * 100 / running_state.freq_hz ≤
        s'.timer_ticks + s'.timer_ticks := by
  obtain ⟨s', hrun, hlow, hup, htwice, _⟩ :=
    check_ticks_seq_drift_bound 100 running_state [400000, 800000, 1200000] (by decide)
      rfl (by simp [running_state, boot_state]) (by decide) (by decide)
  have hval : (check_ticks_seq 100 running_state [400000, 800000, 1200000]).map
      (fun t => (t.timer_ticks, t.last_tick)) = some (1, 800000) := by
    decide
  rw [hrun] at hval
  simp only [Option.map_some', Option.some.injEq, Prod.mk.injEq] at hval
  exact ⟨s', hrun, hval.1, hval.2, hlow, hup, htwice⟩

/-! ## C4: rate of the clock in both builds -/

/-- Effect of `k` periodic firings on the tick count. -/
theorem timer_handler_seq_periodic (TIMER_FREQ : Nat) (hTF : 0 < TIMER_FREQ) :
    ∀ (k : Nat) (s : TimerState), s.timer_ticks < WORD64 →
      ∃ s', timer_handler_seq Mode.periodic TIMER_FREQ k s = some s' ∧
        s'.timer_ticks = (s.timer_ticks + k) % WORD64 := by
  intro k
  induction k with
  | zero =>
    intro s hs
    exact ⟨s, rfl, (Nat.mod_eq_of_lt hs).symm⟩
  | succ n ih =>
    intro s _
    have hstep := timer_handler_periodic_of_pos TIMER_FREQ s hTF
    have key : ∀ s1 : TimerState, s1.timer_ticks = add64 s.timer_ticks 1 →
        timer_handler Mode.periodic TIMER_FREQ s = some s1 →
        ∃ s', timer_handler_seq Mode.periodic TIMER_FREQ (n + 1) s = some s' ∧
          s'.timer_ticks = (s.timer_ticks + (n + 1)) % WORD64 := by
      intro s1 h1 hs1
      have hlt : s1.timer_ticks < WORD64 := by
        rw [h1]
        exact Nat.mod_lt _ WORD64_pos
      obtain ⟨s', hrun, hticks⟩ := ih s1 hlt
      refine ⟨s', ?_, ?_⟩
      · simp only [timer_handler_seq, hs1]
        exact hrun
      · rw [hticks, h1]
        unfold add64
        rw [Nat.mod_add_mod]
        congr 1
        omega
    split at hstep
    · exact key _ rfl hstep
    · exact key _ rfl hstep

/-- The elapsed count `check_ticks` computes when the counter advanced by `x`
since the snapshot, wrapped or not. -/
theorem sub64_add_mod (c0 x : Nat) (hc0 : c0 < WORD64) (hx : x < WORD64) :
    sub64 ((c0 + x) % WORD64) c0 = x := by
  unfold sub64
  rw [Nat.mod_mod, Nat.mod_eq_of_lt hc0, Nat.mod_add_mod]
  have h : c0 + x + (WORD64 - c0) = x + WORD64 := by omega
  rw [h, Nat.add_mod_right, Nat.mod_eq_of_lt hx]

/-- C4, the claim as stated fails in the periodic build: at 32768 Hz with
`TIMER_FREQ = 100` the programmed interval is 327 counter ticks, and while the
counter advances by `10 * 32768` the handler runs 1002 times, so `timer_ticks`
ends at 1002, not within 1 of `10 * 100`. -/
theorem periodic_rate_exceeds_nominal :
    ∃ s1 s2, timer_init Mode.periodic 100 32768 0 boot_state = some (s1, 0) ∧
      s1.timer_ticks = 0 ∧ s1.cntp_tval = 327 ∧
      periodic_run 100 s1 (10 * 32768) = some s2 ∧ s2.timer_ticks = 1002 := by
  obtain ⟨s2, hrun, hticks⟩ :=
    timer_handler_seq_periodic 100 (by decide) 1002
      (set_cntp_ctl 1 (set_cntp_tval (32768 % WORD32 / 100)
        (emit Event.irq_install_handler
          { emit (Event.log_info LogMsg.timer_frequency_khz (32768 % WORD32 / 1000))
              { emit (Event.log_info LogMsg.counter_frequency_mhz 1) boot_state with
                freq_hz := 32768 % WORD32 } with
            handler_installed := true }))) (by decide)
  refine ⟨_, s2, timer_init_periodic_of_pos 100 32768 0 boot_state (by decide), rfl, by decide,
    ?_, ?_⟩
  · have hk : periodic_firings
        (set_cntp_ctl 1 (set_cntp_tval (32768 % WORD32 / 100)
          (emit Event.irq_install_handler
            { emit (Event.log_info LogMsg.timer_frequency_khz (32768 % WORD32 / 1000))
                { emit (Event.log_info LogMsg.counter_frequency_mhz 1) boot_state with
                  freq_hz := 32768 % WORD32 } with
              handler_installed := true }))) (10 * 32768) = some 1002 := by
      decide
    simp only [periodic_run, hk]
    exact hrun
  · rw [hticks]
    decide

/-- C4, amended. Start from `timer_ticks = 0`, run `timer_init` with the
frequency `f` (`0 < f < 2^32`) and let the counter advance by `N * f`.
Periodic build, `TIMER_FREQ ≤ f`: the handler runs `N * f / (f / TIMER_FREQ)`
times and `timer_ticks` is that number modulo `2^64`, never below
`N * TIMER_FREQ`; it is exactly `N * TIMER_FREQ` when `TIMER_FREQ` divides `f`
and `N * TIMER_FREQ < 2^64`. Dynamic-tick build, `N * f * TIMER_FREQ < 2^64`:
`check_ticks` on the final reading `(c0 + N * f) mod 2^64` leaves
`timer_ticks = N * TIMER_FREQ` exactly. -/
theorem rate_after_timer_init (TIMER_FREQ f N c0 : Nat) (s0 : TimerState)
    (hTF : 0 < TIMER_FREQ) (hf : 0 < f) (hf32 : f < WORD32) (h0 : s0.timer_ticks = 0)
    (hc0 : c0 < WORD64) :
    (∃ s1, timer_init Mode.periodic TIMER_FREQ f c0 s0 = some (s1, 0) ∧ s1.timer_ticks = 0 ∧
      (TIMER_FREQ ≤ f →
        ∃ s2, periodic_run TIMER_FREQ s1 (N * f) = some s2 ∧
          s2.timer_ticks = (N * f / (f / TIMER_FREQ)) % WORD64 ∧
          N * TIMER_FREQ ≤ N * f / (f / TIMER_FREQ) ∧
          (TIMER_FREQ ∣ f → N * TIMER_FREQ < WORD64 → s2.timer_ticks = N * TIMER_FREQ))) ∧
    (∃ s1, timer_init Mode.dynamic TIMER_FREQ f c0 s0 = some (s1, 0) ∧ s1.timer_ticks = 0 ∧
      (N * f * TIMER_FREQ < WORD64 →
        ∃ s2, check_ticks TIMER_FREQ s1 ((c0 + N * f) % WORD64) = some s2 ∧
          s2.timer_ticks = N * TIMER_FREQ)) := by
  have hfmod : f % WORD32 = f := Nat.mod_eq_of_lt hf32
  constructor
  · refine ⟨_, timer_init_periodic_of_pos TIMER_FREQ f c0 s0 hTF, h0, ?_⟩
    intro hle
    have hI : 0 < f / TIMER_FREQ := Nat.div_pos hle hTF
    obtain ⟨s2, hrun, hticks⟩ :=
      timer_handler_seq_periodic TIMER_FREQ hTF (N * f / (f / TIMER_FREQ))
        (set_cntp_ctl 1 (set_cntp_tval (f % WORD32 / TIMER_FREQ)
          (emit Event.irq_install_handler
            { emit (Event.log_info LogMsg.timer_frequency_khz (f % WORD32 / 1000))
                { emit (Event.log_info LogMsg.counter_frequency_mhz 1) s0 with
                  freq_hz := f % WORD32 } with
              handler_installed := true })))
        (by show s0.timer_ticks < WORD64; rw [h0]; exact WORD64_pos)
    have hk : periodic_firings
        (set_cntp_ctl 1 (set_cntp_tval (f % WORD32 / TIMER_FREQ)
          (emit Event.irq_install_handler
            { emit (Event.log_info LogMsg.timer_frequency_khz (f % WORD32 / 1000))
                { emit (Event.log_info LogMsg.counter_frequency_mhz 1) s0 with
                  freq_hz := f % WORD32 } with
              handler_installed := true }))) (N * f) = some (N * f / (f / TIMER_FREQ)) := by
      show (if (1 : Nat) = 1 then udiv (N * f) (f % WORD32 / TIMER_FREQ) else some 0) = _
      rw [if_pos rfl, hfmod, udiv_of_pos _ _ hI]
    have hticks' : s2.timer_ticks = (N * f / (f / TIMER_FREQ)) % WORD64 := by
      rw [hticks]
      show (s0.timer_ticks + _) % WORD64 = _
      rw [h0, Nat.zero_add]
    have hge : N * TIMER_FREQ ≤ N * f / (f / TIMER_FREQ) := by
      rw [Nat.le_div_iff_mul_le hI, Nat.mul_assoc]
      exact Nat.mul_le_mul_left _ (Nat.mul_div_le f TIMER_FREQ)
    refine ⟨s2, ?_, hticks', hge, ?_⟩
    · simp only [periodic_run, hk]
      exact hrun
    · intro hdvd hN
      obtain ⟨q, hq⟩ := hdvd
      have hqpos : 0 < q := by
        rcases Nat.eq_zero_or_pos q with h | h
        · rw [h, Nat.mul_zero] at hq
          omega
        · exact h
      have hdiv : f / TIMER_FREQ = q := by
        rw [hq, Nat.mul_div_cancel_left _ hTF]
      have hcount : N * f / (f / TIMER_FREQ) = N * TIMER_FREQ := by
        rw [hdiv, hq, ← Nat.mul_assoc, Nat.mul_div_cancel _ hqpos]
      rw [hticks', hcount, Nat.mod_eq_of_lt hN]
  · refine ⟨_, timer_init_dynamic_eq TIMER_FREQ f c0 s0, h0, ?_⟩
    intro hmul
    have hNf : N * f < WORD64 :=
      lt_of_le_of_lt (Nat.le_mul_of_pos_right _ hTF) hmul
    have hstep := check_ticks_of_freq_pos TIMER_FREQ
      ({ emit Event.irq_install_handler
          { emit (Event.log_info LogMsg.timer_frequency_khz (f % WORD32 / 1000))
              { emit (Event.log_info LogMsg.counter_frequency_mhz 1) s0 with
                freq_hz := f % WORD32 } with
            handler_installed := true } with
        boot_tick := c0, last_tick := c0 }) ((c0 + N * f) % WORD64)
      (by show 0 < f % WORD32; rw [hfmod]; exact hf)
    simp only [emit, hfmod] at hstep ⊢
    rw [sub64_add_mod c0 (N * f) hc0 hNf] at hstep
    have hprod : mul64 (N * f) (TIMER_FREQ % WORD64) = N * f * TIMER_FREQ := by
      unfold mul64
      rcases Nat.eq_zero_or_pos (N * f) with hz | hp
      · rw [hz]
        simp
      · have hTFlt : TIMER_FREQ < WORD64 :=
          lt_of_le_of_lt (Nat.le_mul_of_pos_left _ hp) hmul
        rw [Nat.mod_eq_of_lt hTFlt, Nat.mod_eq_of_lt hmul]
    have hquot : N * f * TIMER_FREQ / f = N * TIMER_FREQ := by
      rw [Nat.mul_assoc, Nat.mul_comm f, ← Nat.mul_assoc, Nat.mul_div_cancel _ hf]
    rw [hprod, hquot] at hstep
    refine ⟨_, hstep, ?_⟩
    have hNTF : N * TIMER_FREQ < WORD64 := by
      have : N * TIMER_FREQ ≤ N * TIMER_FREQ * f := Nat.le_mul_of_pos_right _ hf
      have h2 : N * TIMER_FREQ * f = N * f * TIMER_FREQ := by
        rw [Nat.mul_assoc, Nat.mul_comm TIMER_FREQ, ← Nat.mul_assoc]
      omega
    split
    · show add64 s0.timer_ticks (N * TIMER_FREQ) = N * TIMER_FREQ
      rw [h0, add64_of_lt 0 (N * TIMER_FREQ) (by omega), Nat.zero_add]
    · rename_i hnp
      show s0.timer_ticks = N * TIMER_FREQ
      rw [h0]
      omega

/-- C4, the amended statement in the dynamic-tick build at 62.5 MHz,
`TIMER_FREQ = 100`, three seconds, with a boot snapshot so close to `2^64` that
the counter wraps meanwhile. -/
theorem rate_after_timer_init_witness :
    ∃ s1, timer_init Mode.dynamic 100 62500000 18446744073709551000 boot_state = some (s1, 0) ∧
      s1.timer_ticks = 0 ∧
      (3 * 62500000 * 100 < WORD64 →
        ∃ s2, check_ticks 100 s1 ((18446744073709551000 + 3 * 62500000) % WORD64) = some s2 ∧
          s2.timer_ticks = 3 * 100) :=
  (rate_after_timer_init 100 62500000 3 18446744073709551000 boot_state (by decide) (by decide)
    (by decide) rfl (by decide)).2

/-! ## C5: a counter reading below the snapshot -/

/-- C5, the claim as stated fails: with `last_tick = 1000` and the reading 999
at 62.5 MHz, `check_ticks` takes the 64-bit difference `2^64 - 1` as elapsed
and adds 295147905179 to `timer_ticks`. -/
theorem check_ticks_credits_backward_reading :
    snapshot_state.timer_ticks = 0 ∧ snapshot_state.last_tick = 1000 ∧
    ∃ s', check_ticks 100 snapshot_state 999 = some s' ∧
      s'.timer_ticks = 295147905179 ∧ s'.last_tick = 999 := by
  refine ⟨rfl, rfl, ?_⟩
  rw [check_ticks_of_freq_pos 100 snapshot_state 999 (by decide)]
  refine ⟨_, rfl, ?_, ?_⟩ <;> decide

/-- C5, amended: for `freq_hz > 0` and a reading `curr` below the stored
`last_tick`, `check_ticks` does not clamp. It takes the 64-bit difference
`2^64 + curr - last_tick` as the elapsed count and credits
`d = ((2^64 + curr - last_tick) * TIMER_FREQ mod 2^64) / freq_hz` ticks:
`timer_ticks` becomes `(timer_ticks + d) mod 2^64` and `last_tick` becomes
`curr` when `d > 0`, and both are unchanged only when `d = 0`. -/
theorem check_ticks_backward_reading (TIMER_FREQ : Nat) (s : TimerState) (curr : Nat)
    (hf : 0 < s.freq_hz) (hlt : curr < s.last_tick) (hlast : s.last_tick < WORD64)
    (hTF : TIMER_FREQ < WORD64) :
    ∃ s', check_ticks TIMER_FREQ s curr = some s' ∧
      (0 < (WORD64 + curr - s.last_tick) * TIMER_FREQ % WORD64 / s.freq_hz →
        s'.timer_ticks =
          (s.timer_ticks + (WORD64 + curr - s.last_tick) * TIMER_FREQ % WORD64 / s.freq_hz)
            % WORD64 ∧
        s'.last_tick = curr) ∧
      ((WORD64 + curr - s.last_tick) * TIMER_FREQ % WORD64 / s.freq_hz = 0 →
        s'.timer_ticks = s.timer_ticks ∧ s'.last_tick = s.last_tick) := by
  refine ⟨_, check_ticks_of_freq_pos _ _ _ hf, ?_⟩
  rw [sub64_of_lt curr s.last_tick hlt hlast, Nat.mod_eq_of_lt hTF]
  unfold mul64
  by_cases hd : 0 < (WORD64 + curr - s.last_tick) * TIMER_FREQ % WORD64 / s.freq_hz
  · rw [if_pos hd]
    exact ⟨fun _ => ⟨rfl, rfl⟩, fun h0 => by omega⟩
  · rw [if_neg hd]
    exact ⟨fun h => absurd h hd, fun _ => ⟨rfl, rfl⟩⟩

/-- C5, the amended statement at `last_tick = 1000`, reading 999, 62.5 MHz. -/
theorem check_ticks_backward_reading_witness :
    ∃ s', check_ticks 100 snapshot_state 999 = some s' ∧
      (0 < (WORD64 + 999 - snapshot_state.last_tick) * 100 % WORD64 / snapshot_state.freq_hz →
        s'.timer_ticks =
          (snapshot_state.timer_ticks +
            (WORD64 + 999 - snapshot_state.last_tick) * 100 % WORD64 / snapshot_state.freq_hz)
            % WORD64 ∧
        s'.last_tick = 999) ∧
      ((WORD64 + 999 - snapshot_state.last_tick) * 100 % WORD64 / snapshot_state.freq_hz = 0 →
        s'.timer_ticks = snapshot_state.timer_ticks ∧
        s'.last_tick = snapshot_state.last_tick) :=
  check_ticks_backward_reading 100 snapshot_state 999 (by decide) (by decide) (by decide)
    (by decide)

/-! ## C6: `check_ticks` while the frequency is unknown -/

/-- C6: with `freq_hz = 0`, `check_ticks` returns the state it was given
(`timer_ticks`, `last_tick` and everything else unchanged, no call made). The
division by `freq_hz` would have no result there (`diff_ticks` is `none`), and
it is never evaluated with a zero divisor: `check_ticks` has a result in every
state and for every reading. -/
theorem check_ticks_noop_when_freq_unknown (TIMER_FREQ : Nat) (s : TimerState) (curr : Nat)
    (hf : s.freq_hz = 0) :
    check_ticks TIMER_FREQ s curr = some s ∧
    diff_ticks TIMER_FREQ s curr = none ∧
    ∀ (t : TimerState) (c : Nat), ∃ t', check_ticks TIMER_FREQ t c = some t' := by
  refine ⟨check_ticks_of_freq_zero _ _ _ hf, ?_, ?_⟩
  · unfold diff_ticks udiv
    rw [if_pos hf]
  · intro t c
    rcases Nat.eq_zero_or_pos t.freq_hz with h0 | hpos
    · exact ⟨t, check_ticks_of_freq_zero _ _ _ h0⟩
    · exact ⟨_, check_ticks_of_freq_pos _ _ _ hpos⟩

/-- C6 on a core before `timer_init`, with the reading 123456. -/
theorem check_ticks_noop_when_freq_unknown_witness :
    boot_state.freq_hz = 0 ∧
    check_ticks 100 boot_state 123456 = some boot_state ∧
    diff_ticks 100 boot_state 123456 = none ∧
    ∀ (t : TimerState) (c : Nat), ∃ t', check_ticks 100 t c = some t' :=
  ⟨rfl, check_ticks_noop_when_freq_unknown 100 boot_state 123456 rfl⟩

/-! ## C7: `timer_init` when the frequency register reads 0 -/

/-- C7, the claim as stated fails: when `get_cntfrq()` yields 0, `timer_init`
returns 0 and has installed `timer_handler`, in both builds. -/
theorem timer_init_installs_handler_at_zero_frequency :
    (∃ s', timer_init Mode.periodic 100 0 0 boot_state = some (s', 0) ∧
      s'.handler_installed = true ∧ Event.irq_install_handler ∈ s'.trace) ∧
    (∃ s', timer_init Mode.dynamic 100 0 0 boot_state = some (s', 0) ∧
      s'.handler_installed = true ∧ Event.irq_install_handler ∈ s'.trace) := by
  constructor
  · exact ⟨_, timer_init_periodic_of_pos 100 0 0 boot_state (by decide), rfl, by decide⟩
  · exact ⟨_, timer_init_dynamic_eq 100 0 0 boot_state, rfl, by decide⟩

/-- C7, amended: `timer_init` has no failure path. When `get_cntfrq()` yields
0 it returns 0 in both builds, stores `freq_hz = 0` and installs
`timer_handler` on the physical-timer vector. -/
theorem timer_init_at_zero_frequency (mode : Mode) (TIMER_FREQ cntpct : Nat) (s : TimerState)
    (hTF : 0 < TIMER_FREQ) :
    ∃ s', timer_init mode TIMER_FREQ 0 cntpct s = some (s', 0) ∧
      s'.freq_hz = 0 ∧ s'.handler_installed = true ∧
      Event.irq_install_handler ∈ s'.trace := by
  cases mode with
  | periodic =>
    refine ⟨_, timer_init_periodic_of_pos TIMER_FREQ 0 cntpct s hTF, rfl, rfl, ?_⟩
    simp [set_cntp_ctl, set_cntp_tval, emit]
  | dynamic =>
    refine ⟨_, timer_init_dynamic_eq TIMER_FREQ 0 cntpct s, rfl, rfl, ?_⟩
    simp [emit]

/-- C7, the amended statement in the periodic build with `TIMER_FREQ = 100`. -/
theorem timer_init_at_zero_frequency_witness :
    0 < 100 ∧
    ∃ s', timer_init Mode.periodic 100 0 77 boot_state = some (s', 0) ∧
      s'.freq_hz = 0 ∧ s'.handler_installed = true ∧
      Event.irq_install_handler ∈ s'.trace :=
  ⟨by decide, timer_init_at_zero_frequency Mode.periodic 100 77 boot_state (by decide)⟩

/-! ## C8: the busy-wait of the idle task -/

/-- What a finished idle loop has done: it stops on a value of `timer_ticks`
at or above `eticks`, and its record is a run of full iterations, each with one
work-queue drain between the loop condition and the recheck, followed by the
comparison that ended the loop. -/
theorem idle_loop_trace (ext : Extern) (eticks : Nat) :
    ∀ (fuel : Nat) (s s' : TimerState), idle_loop ext eticks fuel s = some s' →
      eticks ≤ s'.timer_ticks ∧
      ∃ (rounds : List (Nat × Nat)) (final : List Event),
        s'.trace = s.trace ++ rounds.flatMap idle_iteration ++ final ∧
        (∀ vw ∈ rounds, vw.1 < eticks ∧ vw.2 < eticks) ∧
        (final = [Event.compare_ticks Site.loop_head s'.timer_ticks] ∨
          ∃ v, v < eticks ∧
            final = [Event.compare_ticks Site.loop_head v, Event.check_workqueues,
              Event.compare_ticks Site.recheck s'.timer_ticks]) := by
  intro fuel
  induction fuel with
  | zero =>
    intro s s' hs
    simp [idle_loop] at hs
  | succ n ih =>
    intro s s' hs
    simp only [idle_loop] at hs
    split at hs
    · rename_i hlt
      split at hs
      · rename_i hge
        cases hs
        refine ⟨hge, [], _, ?_, ?_, Or.inr ⟨s.timer_ticks, hlt, rfl⟩⟩
        · simp [compare, emit, call]
        · intro vw hvw
          cases hvw
      · rename_i hnge
        obtain ⟨hfin, rounds, final, htrace, hall, hlast⟩ := ih _ _ hs
        refine ⟨hfin, (s.timer_ticks, (ext.check_workqueues (compare Site.loop_head s)).timer_ticks)
          :: rounds, final, ?_, ?_, hlast⟩
        · rw [htrace]
          simp [compare, emit, call, idle_iteration]
        · intro vw hvw
          rcases List.mem_cons.mp hvw with h | h
          · rw [h]
            exact ⟨hlt, Nat.lt_of_not_le hnge⟩
          · exact hall vw h
    · rename_i hnlt
      cases hs
      refine ⟨Nat.le_of_not_lt hnlt, [], _, ?_, ?_, Or.inl rfl⟩
      · simp [compare, emit]
      · intro vw hvw
        cases hvw

/-- The idle loop ends when every work-queue drain below the target advances
the clock and `PAUSE` does not set it back: `fuel` evaluations of the loop
condition are enough as soon as `eticks ≤ timer_ticks + fuel`. -/
theorem idle_loop_returns (ext : Extern) (eticks : Nat)
    (hcw : ∀ t, t.timer_ticks < eticks → t.timer_ticks < (ext.check_workqueues t).timer_ticks)
    (hp : ∀ t, t.timer_ticks ≤ (ext.pause t).timer_ticks) :
    ∀ (fuel : Nat) (s : TimerState), 0 < fuel → eticks ≤ s.timer_ticks + fuel →
      ∃ s', idle_loop ext eticks fuel s = some s' := by
  intro fuel
  induction fuel with
  | zero =>
    intro s h
    omega
  | succ n ih =>
    intro s _ hle
    simp only [idle_loop]
    split
    · rename_i hlt
      have h1 := hcw (compare Site.loop_head s) hlt
      split
      · exact ⟨_, rfl⟩
      · rename_i hnge
        have h2 := hp (compare Site.recheck
          (call Event.check_workqueues ext.check_workqueues (compare Site.loop_head s)))
        simp only [compare, emit, call] at h1 h2 hnge hlt
        apply ih
        · omega
        · simp only [compare, emit, call]
          omega
    · exact ⟨_, rfl⟩

/-- A wait that has not returned after `fuel` evaluations of the loop condition
has gone round `fuel` times: every value of `timer_ticks` it compared was below
the target, and each round ran the work-queue drain once between the loop
condition and the recheck. -/
theorem idle_loop_spinning (ext : Extern) (eticks : Nat) :
    ∀ (fuel : Nat) (s : TimerState), idle_loop ext eticks fuel s = none →
      ∃ rounds : List (Nat × Nat), rounds.length = fuel ∧
        (∀ vw ∈ rounds, vw.1 < eticks ∧ vw.2 < eticks) ∧
        ((idle_round ext)^[fuel] s).trace = s.trace ++ rounds.flatMap idle_iteration := by
  intro fuel
  induction fuel with
  | zero =>
    intro s _
    refine ⟨[], rfl, ?_, by simp⟩
    intro vw hvw
    cases hvw
  | succ n ih =>
    intro s hs
    simp only [idle_loop] at hs
    split at hs
    · rename_i hlt
      split at hs
      · cases hs
      · rename_i hnge
        obtain ⟨rounds, hlen, hall, htrace⟩ := ih _ hs
        refine ⟨(s.timer_ticks, (ext.check_workqueues (compare Site.loop_head s)).timer_ticks)
          :: rounds, by rw [List.length_cons, hlen], ?_, ?_⟩
        · intro vw hvw
          rcases List.mem_cons.mp hvw with h | h
          · rw [h]
            exact ⟨hlt, Nat.lt_of_not_le hnge⟩
          · exact hall vw h
        · rw [Function.iterate_succ_apply]
          show ((idle_round ext)^[n] (call Event.pause ext.pause (compare Site.recheck
            (call Event.check_workqueues ext.check_workqueues (compare Site.loop_head s))))).trace
            = _
          rw [htrace]
          simp [compare, emit, call, idle_iteration]
    · cases hs

/-- C8: when the caller is the idle task and `timer_wait(ticks)` returns, it
returns 0 and the last value of `timer_ticks` it read is at or above the
target `(entry timer_ticks + ticks) mod 2^64`, the 64-bit sum of line 111,
which is `entry timer_ticks + ticks` whenever that is below `2^64`; this
whatever the collaborators did to the state in between. Every iteration of the
loop ran the work-queue drain exactly once between its loop condition and the
next comparison, in a wait that returned (every round before the last compared
values below the target) and in one that is still spinning after `fuel`
evaluations of the loop condition (`fuel` full rounds, all values below the
target). The wait does return, given enough fuel, when every drain below the
target advances the clock and neither the interrupt window nor `PAUSE` sets it
back. -/
theorem timer_wait_idle_postcondition (ext : Extern) (ticks : Nat) (s : TimerState) :
    (∀ (fuel : Nat) (s' : TimerState) (r : Int),
      timer_wait ext fuel TaskStatus.idle ticks s = some (s', r) →
        r = 0 ∧ (s.timer_ticks + ticks % WORD32) % WORD64 ≤ s'.timer_ticks ∧
        (ticks < WORD32 → s.timer_ticks + ticks < WORD64 →
          s.timer_ticks + ticks ≤ s'.timer_ticks) ∧
        ∃ (rounds : List (Nat × Nat)) (final : List Event),
          s'.trace = s.trace ++ rounds.flatMap idle_iteration ++ final ∧
          (∀ vw ∈ rounds, vw.1 < (s.timer_ticks + ticks % WORD32) % WORD64 ∧
            vw.2 < (s.timer_ticks + ticks % WORD32) % WORD64) ∧
          (final = [Event.compare_ticks Site.loop_head s'.timer_ticks] ∨
            ∃ v, v < (s.timer_ticks + ticks % WORD32) % WORD64 ∧
              final = [Event.compare_ticks Site.loop_head v, Event.check_workqueues,
                Event.compare_ticks Site.recheck s'.timer_ticks])) ∧
    (∀ (fuel : Nat), timer_wait ext fuel TaskStatus.idle ticks s = none →
      ∃ rounds : List (Nat × Nat), rounds.length = fuel ∧
        (∀ vw ∈ rounds, vw.1 < (s.timer_ticks + ticks % WORD32) % WORD64 ∧
          vw.2 < (s.timer_ticks + ticks % WORD32) % WORD64) ∧
        ((idle_round ext)^[fuel] { ext.irq s with trace := s.trace }).trace =
          s.trace ++ rounds.flatMap idle_iteration) ∧
    ((∀ t, t.timer_ticks < (s.timer_ticks + ticks % WORD32) % WORD64 →
        t.timer_ticks < (ext.check_workqueues t).timer_ticks) →
      (∀ t, t.timer_ticks ≤ (ext.pause t).timer_ticks) →
      s.timer_ticks ≤ (ext.irq s).timer_ticks →
      ∃ s', timer_wait ext (ticks % WORD32 + 1) TaskStatus.idle ticks s = some (s', 0)) := by
  have hE : eticks_of s ticks = (s.timer_ticks + ticks % WORD32) % WORD64 := rfl
  refine ⟨?_, ?_, ?_⟩
  · intro fuel s' r h
    simp only [timer_wait] at h
    split at h
    · cases h
    · rename_i s1 h1
      cases h
      obtain ⟨hge, hshape⟩ := idle_loop_trace ext _ fuel _ _ h1
      rw [hE] at hge hshape
      refine ⟨rfl, hge, ?_, hshape⟩
      intro h32 hsum
      rw [Nat.mod_eq_of_lt h32, Nat.mod_eq_of_lt hsum] at hge
      exact hge
  · intro fuel h
    simp only [timer_wait] at h
    split at h
    · rename_i h1
      have h2 := idle_loop_spinning ext _ fuel _ h1
      rw [hE] at h2
      exact h2
    · cases h
  · intro hcw hp hirq
    have hle : eticks_of s ticks ≤ s.timer_ticks + ticks % WORD32 := by
      rw [hE]
      exact Nat.mod_le _ _
    obtain ⟨s', hs'⟩ := idle_loop_returns ext (eticks_of s ticks) (by rw [hE]; exact hcw) hp
      (ticks % WORD32 + 1) { ext.irq s with trace := s.trace } (Nat.succ_pos _)
      (by show _ ≤ (ext.irq s).timer_ticks + _; omega)
    exact ⟨s', by simp only [timer_wait, hs']⟩

/-- C8 on a core that enters with `timer_ticks = 1000`, `ticks = 2` and a clock
that advances by one tick per work-queue drain: the target is 1002, the wait
returns 0 at `timer_ticks = 1002` after two drains, and with fuel for one
evaluation of the loop condition only it is still spinning. -/
theorem timer_wait_idle_postcondition_witness :
    (ticked_state.timer_ticks + 2 % WORD32) % WORD64 = 1002 ∧
    timer_wait Extern.ticking 1 TaskStatus.idle 2 ticked_state = none ∧
    ∃ s', timer_wait Extern.ticking 3 TaskStatus.idle 2 ticked_state = some (s', 0) ∧
      (ticked_state.timer_ticks + 2 % WORD32) % WORD64 ≤ s'.timer_ticks ∧
      s'.timer_ticks = 1002 ∧
      s'.trace = [Event.compare_ticks Site.loop_head 1000, Event.check_workqueues,
        Event.compare_ticks Site.recheck 1001, Event.pause,
        Event.compare_ticks Site.loop_head 1001, Event.check_workqueues,
        Event.compare_ticks Site.recheck 1002] :=
  ⟨by decide, rfl, _, rfl,
    ((timer_wait_idle_postcondition Extern.ticking 2 ticked_state).1 3 _ 0 rfl).2.1, rfl, rfl⟩

/-! ## C9: the wait of a task that is not the idle task -/

/-- Closed form of `timer_wait` for a caller that is not the idle task. -/
theorem timer_wait_other_eq (ext : Extern) (fuel ticks : Nat) (s : TimerState) :
    timer_wait ext fuel TaskStatus.other ticks s =
      some (
        if (compare Site.before_drain { ext.irq s with trace := s.trace }).timer_ticks
            < eticks_of s ticks then
          if (compare Site.after_drain (call Event.check_workqueues ext.check_workqueues
              (compare Site.before_drain { ext.irq s with trace := s.trace }))).timer_ticks
              < eticks_of s ticks then
            call Event.reschedule ext.reschedule
              (call (Event.set_timer (eticks_of s ticks)) (ext.set_timer (eticks_of s ticks))
                (compare Site.after_drain (call Event.check_workqueues ext.check_workqueues
                  (compare Site.before_drain { ext.irq s with trace := s.trace }))))
          else
            compare Site.after_drain (call Event.check_workqueues ext.check_workqueues
              (compare Site.before_drain { ext.irq s with trace := s.trace }))
        else
          compare Site.before_drain { ext.irq s with trace := s.trace }, 0) := by
  simp only [timer_wait]
  split
  · split <;> rfl
  · rfl

/-- C9: for a caller that is not the idle task, with `v1` the value of
`timer_ticks` compared before the work-queue drain, `v2` the value compared
after it and `eticks = (entry timer_ticks + ticks) mod 2^64`, the 64-bit sum of
line 111 (`entry timer_ticks + ticks` whenever that is below `2^64`).
If `v1 < eticks` and `v2 < eticks`, `timer_wait` calls `check_workqueues` once,
then `set_timer(eticks)` once, then `reschedule` once, and returns 0 with no
further comparison. If `v1 < eticks ≤ v2` it returns 0 after the drain, and if
`eticks ≤ v1` at once: in both cases without `set_timer` or `reschedule`. The
result does not depend on the fuel: there is no loop on this path. -/
theorem timer_wait_other_yields_once (ext : Extern) (fuel ticks : Nat) (s : TimerState) :
    ((ext.irq s).timer_ticks < (s.timer_ticks + ticks % WORD32) % WORD64 →
      (ext.check_workqueues
        (compare Site.before_drain { ext.irq s with trace := s.trace })).timer_ticks
          < (s.timer_ticks + ticks % WORD32) % WORD64 →
      ∃ s', timer_wait ext fuel TaskStatus.other ticks s = some (s', 0) ∧
        s'.trace = s.trace ++
          [Event.compare_ticks Site.before_drain (ext.irq s).timer_ticks,
           Event.check_workqueues,
           Event.compare_ticks Site.after_drain
             (ext.check_workqueues
               (compare Site.before_drain { ext.irq s with trace := s.trace })).timer_ticks,
           Event.set_timer ((s.timer_ticks + ticks % WORD32) % WORD64),
           Event.reschedule] ∧
        (ticks < WORD32 → s.timer_ticks + ticks < WORD64 →
          Event.set_timer (s.timer_ticks + ticks) ∈ s'.trace)) ∧
    ((ext.irq s).timer_ticks < (s.timer_ticks + ticks % WORD32) % WORD64 →
      (s.timer_ticks + ticks % WORD32) % WORD64 ≤ (ext.check_workqueues
        (compare Site.before_drain { ext.irq s with trace := s.trace })).timer_ticks →
      ∃ s', timer_wait ext fuel TaskStatus.other ticks s = some (s', 0) ∧
        s'.trace = s.trace ++
          [Event.compare_ticks Site.before_drain (ext.irq s).timer_ticks,
           Event.check_workqueues,
           Event.compare_ticks Site.after_drain
             (ext.check_workqueues
               (compare Site.before_drain { ext.irq s with trace := s.trace })).timer_ticks]) ∧
    ((s.timer_ticks + ticks % WORD32) % WORD64 ≤ (ext.irq s).timer_ticks →
      ∃ s', timer_wait ext fuel TaskStatus.other ticks s = some (s', 0) ∧
        s'.trace = s.trace ++
          [Event.compare_ticks Site.before_drain (ext.irq s).timer_ticks]) := by
  have heq := timer_wait_other_eq ext fuel ticks s
  have hE : eticks_of s ticks = (s.timer_ticks + ticks % WORD32) % WORD64 := rfl
  refine ⟨?_, ?_, ?_⟩
  · intro h1 h2
    have h1' : (compare Site.before_drain { ext.irq s with trace := s.trace }).timer_ticks
        < eticks_of s ticks := h1
    have h2' : (compare Site.after_drain (call Event.check_workqueues ext.check_workqueues
        (compare Site.before_drain { ext.irq s with trace := s.trace }))).timer_ticks
        < eticks_of s ticks := h2
    rw [if_pos h1', if_pos h2'] at heq
    refine ⟨_, heq, ?_, ?_⟩
    · simp [compare, emit, call, hE]
    · intro h32 hsum
      have hex : eticks_of s ticks = s.timer_ticks + ticks := by
        rw [hE, Nat.mod_eq_of_lt h32, Nat.mod_eq_of_lt hsum]
      simp [compare, emit, call, hex]
  · intro h1 h2
    have h1' : (compare Site.before_drain { ext.irq s with trace := s.trace }).timer_ticks
        < eticks_of s ticks := h1
    have h2' : ¬ (compare Site.after_drain (call Event.check_workqueues ext.check_workqueues
        (compare Site.before_drain { ext.irq s with trace := s.trace }))).timer_ticks
        < eticks_of s ticks := Nat.not_lt.mpr h2
    rw [if_pos h1', if_neg h2'] at heq
    refine ⟨_, heq, ?_⟩
    simp [compare, emit, call]
  · intro h1
    have h1' : ¬ (compare Site.before_drain { ext.irq s with trace := s.trace }).timer_ticks
        < eticks_of s ticks := Nat.not_lt.mpr h1
    rw [if_neg h1'] at heq
    refine ⟨_, heq, ?_⟩
    simp [compare, emit]

/-- C9 on a core that enters with `timer_ticks = 1000`, `ticks = 3` and a clock
that advances by one tick during the drain: the comparisons read 1000 and 1001,
both below the target 1003, and the calls are one drain, one `set_timer(1003)`,
one `reschedule`. -/
theorem timer_wait_other_yields_once_witness :
    (ticked_state.timer_ticks + 3 % WORD32) % WORD64 = 1003 ∧
    (Extern.ticking.irq ticked_state).timer_ticks
      < (ticked_state.timer_ticks + 3 % WORD32) % WORD64 ∧
    (Extern.ticking.check_workqueues
      (compare Site.before_drain
        { Extern.ticking.irq ticked_state with trace := ticked_state.trace })).timer_ticks
        < (ticked_state.timer_ticks + 3 % WORD32) % WORD64 ∧
    ∃ s', timer_wait Extern.ticking 0 TaskStatus.other 3 ticked_state = some (s', 0) ∧
      s'.trace = [Event.compare_ticks Site.before_drain 1000, Event.check_workqueues,
        Event.compare_ticks Site.after_drain 1001, Event.set_timer 1003,
        Event.reschedule] := by
  obtain ⟨s', hrun, htrace, _⟩ :=
    (timer_wait_other_yields_once Extern.ticking 0 3 ticked_state).1 (by decide) (by decide)
  refine ⟨by decide, by decide, by decide, s', hrun, ?_⟩
  rw [htrace]
  decide

/-! ## C10: one firing of the periodic timer -/

/-- C10: in the periodic build, one run of `timer_handler` returns, having
increased the calling core's `timer_ticks` by exactly 1 (the 64-bit sum
`timer_ticks + 1`, which is the exact sum below `2^64 - 1`), then written
`freq_hz / TIMER_FREQ` to the compare interval register and then 1 to the
control register; the only other call it may make is the heartbeat log that
follows. The interval is the one `timer_init` programs for the same
`freq_hz`. -/
theorem timer_handler_periodic_step (TIMER_FREQ : Nat) (s : TimerState) (hTF : 0 < TIMER_FREQ) :
    ∃ s', timer_handler Mode.periodic TIMER_FREQ s = some s' ∧
      s'.timer_ticks = (s.timer_ticks + 1) % WORD64 ∧
      (s.timer_ticks + 1 < WORD64 → s'.timer_ticks = s.timer_ticks + 1) ∧
      s'.cntp_tval = s.freq_hz / TIMER_FREQ ∧ s'.cntp_ctl = 1 ∧
      s'.freq_hz = s.freq_hz ∧ s'.last_tick = s.last_tick ∧
      (∃ log, s'.trace = s.trace ++
          [Event.set_cntp_tval (s.freq_hz / TIMER_FREQ), Event.set_cntp_ctl 1] ++ log ∧
        (log = [] ∨ log = [Event.log_info LogMsg.one_second_passed s.core_id])) ∧
      ∀ (cntfrq cntpct : Nat) (s0 s1 : TimerState) (r : Int),
        timer_init Mode.periodic TIMER_FREQ cntfrq cntpct s0 = some (s1, r) →
        s1.freq_hz = s.freq_hz → s1.cntp_tval = s'.cntp_tval := by
  have hinit : ∀ (cntfrq cntpct : Nat) (s0 s1 : TimerState) (r : Int),
      timer_init Mode.periodic TIMER_FREQ cntfrq cntpct s0 = some (s1, r) →
      s1.freq_hz = s.freq_hz → s1.cntp_tval = s.freq_hz / TIMER_FREQ := by
    intro cntfrq cntpct s0 s1 r h hfreq
    rw [timer_init_periodic_of_pos _ _ _ _ hTF] at h
    cases h
    rw [← hfreq]
    rfl
  refine ⟨_, timer_handler_periodic_of_pos _ _ hTF, ?_⟩
  split
  · refine ⟨rfl, fun h => add64_of_lt _ _ h, rfl, rfl, rfl, rfl,
      ⟨[Event.log_info LogMsg.one_second_passed s.core_id], ?_, Or.inr rfl⟩, hinit⟩
    simp [emit, set_cntp_ctl, set_cntp_tval]
  · refine ⟨rfl, fun h => add64_of_lt _ _ h, rfl, rfl, rfl, rfl, ⟨[], ?_, Or.inl rfl⟩, hinit⟩
    simp [emit, set_cntp_ctl, set_cntp_tval]

/-- C10 at 62.5 MHz with `TIMER_FREQ = 100`: the firing takes `timer_ticks`
from 0 to 1 and programs the interval 625000. -/
theorem timer_handler_periodic_step_witness :
    0 < 100 ∧
    ∃ s', timer_handler Mode.periodic 100 running_state = some s' ∧
      s'.timer_ticks = 1 ∧ s'.cntp_tval = 625000 ∧ s'.cntp_ctl = 1 := by
  obtain ⟨s', h, ht, _, htv, hctl, _⟩ := timer_handler_periodic_step 100 running_state (by decide)
  exact ⟨by decide, s', h, ht, htv, hctl⟩

/-! ## C11: the interrupt handler of the dynamic-tick build -/

/-- C11, the code at the failing input: dynamic-tick build, `TIMER_FREQ = 100`,
a core with `timer_ticks = 0`. One run of `timer_handler` writes 0 to the
control register, leaves `timer_ticks`, `last_tick`, `freq_hz` and the compare
interval as they were, and then emits the log message "One second has passed";
three runs in a row emit it three times, although `timer_ticks` has not moved.
The heartbeat block of lines 98-106 is compiled into both builds, and in this
one nothing in the handler changes `timer_ticks` between two messages. -/
theorem timer_handler_dynamic_logs_on_every_interrupt :
    boot_state.timer_ticks = 0 ∧
    (∃ s', timer_handler Mode.dynamic 100 boot_state = some s' ∧
      s'.cntp_ctl = 0 ∧ s'.timer_ticks = boot_state.timer_ticks ∧
      s'.last_tick = boot_state.last_tick ∧ s'.freq_hz = boot_state.freq_hz ∧
      s'.cntp_tval = boot_state.cntp_tval ∧
      s'.trace = [Event.set_cntp_ctl 0, Event.log_info LogMsg.one_second_passed 0]) ∧
    (∃ s', timer_handler_seq Mode.dynamic 100 3 boot_state = some s' ∧
      s'.timer_ticks = 0 ∧
      s'.trace = [Event.set_cntp_ctl 0, Event.log_info LogMsg.one_second_passed 0,
        Event.set_cntp_ctl 0, Event.log_info LogMsg.one_second_passed 0,
        Event.set_cntp_ctl 0, Event.log_info LogMsg.one_second_passed 0]) := by
  refine ⟨rfl, ⟨_, rfl, ?_⟩, ⟨_, rfl, ?_⟩⟩ <;> decide

/-! ## C13: the handler while the frequency is unknown -/

/-- C13, the claim as stated fails in the periodic build: with `freq_hz = 0`
one run of `timer_handler` takes `timer_ticks` from 0 to 1 and arms the timer,
programming the compare interval 0 and then the control register 1. -/
theorem timer_handler_periodic_arms_at_zero_frequency :
    boot_state.freq_hz = 0 ∧ boot_state.timer_ticks = 0 ∧
    ∃ s', timer_handler Mode.periodic 100 boot_state = some s' ∧
      s'.timer_ticks = 1 ∧ s'.cntp_tval = 0 ∧ s'.cntp_ctl = 1 ∧
      s'.trace = [Event.set_cntp_tval 0, Event.set_cntp_ctl 1] := by
  refine ⟨rfl, rfl, ?_⟩
  rw [timer_handler_periodic_of_pos 100 boot_state (by decide)]
  refine ⟨_, rfl, ?_, ?_, ?_, ?_⟩ <;> decide

/-- C13, amended: the handler has no test of `freq_hz`. With `freq_hz = 0`, in
the dynamic-tick build a run of `timer_handler` leaves `timer_ticks` unchanged
and does not arm the timer (it writes 0 to the control register and never
writes the compare interval); in the periodic build it still stores
`timer_ticks + 1` (64-bit sum) and arms the timer with the compare interval 0
and the control register 1. -/
theorem timer_handler_at_zero_frequency (TIMER_FREQ : Nat) (s : TimerState)
    (hTF : 0 < TIMER_FREQ) (hf : s.freq_hz = 0) :
    (∃ s', timer_handler Mode.dynamic TIMER_FREQ s = some s' ∧
      s'.timer_ticks = s.timer_ticks ∧ s'.cntp_ctl = 0 ∧ s'.cntp_tval = s.cntp_tval ∧
      ∀ e ∈ s'.trace, e ∈ s.trace ∨ e = Event.set_cntp_ctl 0 ∨
        e = Event.log_info LogMsg.one_second_passed s.core_id) ∧
    (∃ s', timer_handler Mode.periodic TIMER_FREQ s = some s' ∧
      s'.timer_ticks = (s.timer_ticks + 1) % WORD64 ∧ s'.cntp_tval = 0 ∧ s'.cntp_ctl = 1 ∧
      ∃ log, s'.trace = s.trace ++ [Event.set_cntp_tval 0, Event.set_cntp_ctl 1] ++ log ∧
        (log = [] ∨ log = [Event.log_info LogMsg.one_second_passed s.core_id])) := by
  have hI : s.freq_hz / TIMER_FREQ = 0 := by
    rw [hf, Nat.zero_div]
  constructor
  · refine ⟨_, timer_handler_dynamic_of_pos _ _ hTF, ?_⟩
    split
    · refine ⟨rfl, rfl, rfl, ?_⟩
      intro e he
      simp only [emit, set_cntp_ctl, List.mem_append, List.mem_singleton] at he
      tauto
    · refine ⟨rfl, rfl, rfl, ?_⟩
      intro e he
      simp only [emit, set_cntp_ctl, List.mem_append, List.mem_singleton] at he
      tauto
  · refine ⟨_, timer_handler_periodic_of_pos _ _ hTF, ?_⟩
    rw [hI]
    split
    · refine ⟨rfl, rfl, rfl, [Event.log_info LogMsg.one_second_passed s.core_id], ?_, Or.inr rfl⟩
      simp [emit, set_cntp_ctl, set_cntp_tval]
    · refine ⟨rfl, rfl, rfl, [], ?_, Or.inl rfl⟩
      simp [emit, set_cntp_ctl, set_cntp_tval]

/-- C13, the amended statement at `TIMER_FREQ = 100` on a core before
`timer_init` (`freq_hz = 0`), dynamic-tick build. -/
theorem timer_handler_at_zero_frequency_witness :
    0 < 100 ∧ boot_state.freq_hz = 0 ∧
    ∃ s', timer_handler Mode.dynamic 100 boot_state = some s' ∧
      s'.timer_ticks = boot_state.timer_ticks ∧ s'.cntp_ctl = 0 ∧
      s'.cntp_tval = boot_state.cntp_tval ∧
      ∀ e ∈ s'.trace, e ∈ boot_state.trace ∨ e = Event.set_cntp_ctl 0 ∨
        e = Event.log_info LogMsg.one_second_passed boot_state.core_id :=
  ⟨by decide, rfl, (timer_handler_at_zero_frequency 100 boot_state (by decide) rfl).1⟩

/-! ## C12: the heartbeat of the periodic build -/

theorem log_messages_append (a b : List Event) :
    log_messages (a ++ b) = log_messages a ++ log_messages b := by
  unfold log_messages
  exact List.filter_append a b

/-- One periodic firing in terms of the log: it adds the heartbeat exactly when
the incremented tick count is a multiple of `TIMER_FREQ`. -/
theorem timer_handler_periodic_log (TIMER_FREQ : Nat) (s : TimerState) (hTF : 0 < TIMER_FREQ) :
    ∃ s', timer_handler Mode.periodic TIMER_FREQ s = some s' ∧
      s'.timer_ticks = add64 s.timer_ticks 1 ∧ s'.core_id = s.core_id ∧
      ∃ added, s'.trace = s.trace ++ added ∧
        (s'.timer_ticks % TIMER_FREQ = 0 →
          log_messages added = [Event.log_info LogMsg.one_second_passed s.core_id]) ∧
        (s'.timer_ticks % TIMER_FREQ ≠ 0 → log_messages added = []) := by
  refine ⟨_, timer_handler_periodic_of_pos _ _ hTF, ?_⟩
  by_cases h : add64 s.timer_ticks 1 % TIMER_FREQ = 0
  · rw [if_pos h]
    refine ⟨rfl, rfl, [Event.set_cntp_tval (s.freq_hz / TIMER_FREQ), Event.set_cntp_ctl 1,
      Event.log_info LogMsg.one_second_passed s.core_id], ?_, fun _ => rfl,
      fun hne => absurd h hne⟩
    simp [emit, set_cntp_ctl, set_cntp_tval]
  · rw [if_neg h]
    refine ⟨rfl, rfl, [Event.set_cntp_tval (s.freq_hz / TIMER_FREQ), Event.set_cntp_ctl 1], ?_,
      fun h0 => absurd h0 h, fun _ => rfl⟩
    simp [emit, set_cntp_ctl, set_cntp_tval]

/-- The quotient by `TIMER_FREQ` steps by one exactly at the multiples. -/
theorem succ_div_sub (b t : Nat) :
    ((t + 1) % b = 0 → (t + 1) / b = t / b + 1) ∧ ((t + 1) % b ≠ 0 → (t + 1) / b = t / b) := by
  rw [Nat.succ_div]
  constructor
  · intro h
    rw [if_pos (Nat.dvd_of_mod_eq_zero h)]
  · intro h
    rw [if_neg (fun hd => h (Nat.mod_eq_zero_of_dvd hd)), Nat.add_zero]

/-- Heartbeats of `k` periodic firings that do not wrap `timer_ticks`: one for
each multiple of `TIMER_FREQ` the tick count reaches. -/
theorem timer_handler_seq_log (TIMER_FREQ : Nat) (hTF : 0 < TIMER_FREQ) :
    ∀ (k : Nat) (s : TimerState), s.timer_ticks + k < WORD64 →
      ∃ s', timer_handler_seq Mode.periodic TIMER_FREQ k s = some s' ∧
        s'.timer_ticks = s.timer_ticks + k ∧ s'.core_id = s.core_id ∧
        ∃ added, s'.trace = s.trace ++ added ∧
          log_messages added =
            List.replicate ((s.timer_ticks + k) / TIMER_FREQ - s.timer_ticks / TIMER_FREQ)
              (Event.log_info LogMsg.one_second_passed s.core_id) := by
  intro k
  induction k with
  | zero =>
    intro s _
    refine ⟨s, rfl, rfl, rfl, [], by simp, ?_⟩
    simp [log_messages]
  | succ n ih =>
    intro s hlt
    obtain ⟨s1, h1, ht1, hc1, added1, htr1, hlog1, hnolog1⟩ :=
      timer_handler_periodic_log TIMER_FREQ s hTF
    rw [add64_of_lt _ _ (by omega)] at ht1
    obtain ⟨s2, h2, ht2, hc2, added2, htr2, hlog2⟩ := ih s1 (by omega)
    have hdiv := succ_div_sub TIMER_FREQ s.timer_ticks
    have hmono : (s.timer_ticks + 1) / TIMER_FREQ ≤ (s.timer_ticks + 1 + n) / TIMER_FREQ :=
      Nat.div_le_div_right (by omega)
    have hassoc : s.timer_ticks + (n + 1) = s.timer_ticks + 1 + n := by omega
    refine ⟨s2, ?_, ?_, ?_, added1 ++ added2, ?_, ?_⟩
    · simp only [timer_handler_seq, h1]
      exact h2
    · rw [ht2, ht1]
      omega
    · rw [hc2, hc1]
    · rw [htr2, htr1, List.append_assoc]
    · rw [log_messages_append, hlog2, ht1, hc1, hassoc]
      by_cases hm : (s.timer_ticks + 1) % TIMER_FREQ = 0
      · rw [hlog1 (by rw [ht1]; exact hm)]
        have hq := hdiv.1 hm
        have hcount : (s.timer_ticks + 1 + n) / TIMER_FREQ - s.timer_ticks / TIMER_FREQ =
            1 + ((s.timer_ticks + 1 + n) / TIMER_FREQ - (s.timer_ticks + 1) / TIMER_FREQ) := by
          omega
        rw [hcount, List.replicate_add]
        rfl
      · rw [hnolog1 (by rw [ht1]; exact hm)]
        have hq := hdiv.2 hm
        rw [hq, List.nil_append]

/-- A run of `a + b` firings is a run of `a` followed by a run of `b`. -/
theorem timer_handler_seq_add (mode : Mode) (TIMER_FREQ : Nat) :
    ∀ (a b : Nat) (s : TimerState),
      timer_handler_seq mode TIMER_FREQ (a + b) s =
        match timer_handler_seq mode TIMER_FREQ a s with
        | none => none
        | some s' => timer_handler_seq mode TIMER_FREQ b s' := by
  intro a
  induction a with
  | zero =>
    intro b s
    rw [Nat.zero_add]
    rfl
  | succ n ih =>
    intro b s
    rw [Nat.succ_add]
    simp only [timer_handler_seq]
    cases timer_handler mode TIMER_FREQ s with
    | none => rfl
    | some s1 => exact ih b s1

/-- C12, the claim as stated fails for long runs: with `TIMER_FREQ = 100`,
`2^64` consecutive firings from `timer_ticks = 0` emit 184467440737095517
heartbeats, one more than `2^64 / 100`, because the last firing wraps
`timer_ticks` to 0, which is again a multiple of 100. -/
theorem heartbeat_count_after_wrap :
    boot_state.timer_ticks = 0 ∧
    (∃ s', timer_handler_seq Mode.periodic 100 (18446744073709551615 + 1) boot_state = some s' ∧
      s'.timer_ticks = 0 ∧ (log_messages s'.trace).length = 184467440737095517) ∧
    (18446744073709551615 + 1) / 100 = 184467440737095516 := by
  refine ⟨rfl, ?_, by decide⟩
  obtain ⟨s1, h1, ht1, _, added1, htr1, hlog1⟩ :=
    timer_handler_seq_log 100 (by decide) 18446744073709551615 boot_state (by decide)
  obtain ⟨s2, h2, ht2, _, added2, htr2, hlog2, _⟩ :=
    timer_handler_periodic_log 100 s1 (by decide)
  have hz : s2.timer_ticks = 0 := by
    rw [ht2, ht1]
    decide
  have hstep : timer_handler_seq Mode.periodic 100 1 s1 = some s2 := by
    simp only [timer_handler_seq, h2]
  refine ⟨s2, ?_, hz, ?_⟩
  · rw [timer_handler_seq_add, h1]
    exact hstep
  · have hn : (boot_state.timer_ticks + 18446744073709551615) / 100 -
        boot_state.timer_ticks / 100 = 184467440737095516 := by decide
    rw [htr2, htr1, log_messages_append, log_messages_append, hlog1,
      hlog2 (by rw [hz]), hn, List.length_append, List.length_append,
      List.length_replicate]
    rfl

/-- C12, amended: for every state, a run of the periodic `timer_handler`
returns and emits exactly one log message, the heartbeat carrying the firing
core's id, if the tick count after its increment is a multiple of
`TIMER_FREQ`, and no log message otherwise; hence over any run of `k < 2^64`
consecutive firings starting from `timer_ticks = 0` exactly `k / TIMER_FREQ`
log messages are emitted, all of them that heartbeat. -/
theorem heartbeat_once_per_second (TIMER_FREQ : Nat) (s : TimerState) (hTF : 0 < TIMER_FREQ) :
    (∃ s' added, timer_handler Mode.periodic TIMER_FREQ s = some s' ∧
      s'.timer_ticks = (s.timer_ticks + 1) % WORD64 ∧ s'.trace = s.trace ++ added ∧
      (s'.timer_ticks % TIMER_FREQ = 0 →
        log_messages added = [Event.log_info LogMsg.one_second_passed s.core_id]) ∧
      (s'.timer_ticks % TIMER_FREQ ≠ 0 → log_messages added = [])) ∧
    (∀ k, s.timer_ticks = 0 → k < WORD64 →
      ∃ s' added, timer_handler_seq Mode.periodic TIMER_FREQ k s = some s' ∧
        s'.trace = s.trace ++ added ∧
        log_messages added =
          List.replicate (k / TIMER_FREQ) (Event.log_info LogMsg.one_second_passed s.core_id) ∧
        (log_messages added).length = k / TIMER_FREQ) := by
  constructor
  · obtain ⟨s', h, ht, _, added, htr, hlog, hnolog⟩ := timer_handler_periodic_log TIMER_FREQ s hTF
    exact ⟨s', added, h, ht, htr, hlog, hnolog⟩
  · intro k h0 hk
    obtain ⟨s', h, _, _, added, htr, hlog⟩ :=
      timer_handler_seq_log TIMER_FREQ hTF k s (by omega)
    rw [h0, Nat.zero_add, Nat.zero_div, Nat.sub_zero] at hlog
    exact ⟨s', added, h, htr, hlog, by rw [hlog, List.length_replicate]⟩

/-- C12, the amended statement at `TIMER_FREQ = 100`: 250 firings from
`timer_ticks = 0` emit `250 / 100 = 2` heartbeats. -/
theorem heartbeat_once_per_second_witness :
    0 < 100 ∧ boot_state.timer_ticks = 0 ∧ 250 < WORD64 ∧ 250 / 100 = 2 ∧
    ∃ s' added, timer_handler_seq Mode.periodic 100 250 boot_state = some s' ∧
      s'.trace = boot_state.trace ++ added ∧
      log_messages added =
        List.replicate (250 / 100) (Event.log_info LogMsg.one_second_passed boot_state.core_id) ∧
      (log_messages added).length = 250 / 100 :=
  ⟨by decide, rfl, by decide, by decide,
    (heartbeat_once_per_second 100 boot_state (by decide)).2 250 rfl (by decide)⟩

/-! ## C14: the state `timer_init` leaves -/

/-- C14: for every frequency `f` read from the hardware (`0 < f`, a 32-bit
value) and every counter reading `c`, `timer_init` returns 0 and leaves
`freq_hz = f`, `timer_handler` installed on the physical-timer vector and
`timer_ticks` unchanged. In the periodic build the compare interval is
`f / TIMER_FREQ` and the control register 1, written in that order after the
handler is installed. In the dynamic-tick build `last_tick = c` (and
`boot_tick = c`) and neither the compare interval nor the control register is
written. -/
theorem timer_init_postcondition (TIMER_FREQ f c : Nat) (s : TimerState)
    (hTF : 0 < TIMER_FREQ) (hf : 0 < f) (hf32 : f < WORD32) :
    (∃ s', timer_init Mode.periodic TIMER_FREQ f c s = some (s', 0) ∧
      s'.freq_hz = f ∧ 0 < s'.freq_hz ∧ s'.handler_installed = true ∧
      s'.timer_ticks = s.timer_ticks ∧
      s'.cntp_tval = f / TIMER_FREQ ∧ s'.cntp_ctl = 1 ∧
      s'.trace = s.trace ++
        [Event.log_info LogMsg.counter_frequency_mhz 1,
         Event.log_info LogMsg.timer_frequency_khz (f / 1000),
         Event.irq_install_handler,
         Event.set_cntp_tval (f / TIMER_FREQ),
         Event.set_cntp_ctl 1]) ∧
    (∃ s', timer_init Mode.dynamic TIMER_FREQ f c s = some (s', 0) ∧
      s'.freq_hz = f ∧ 0 < s'.freq_hz ∧ s'.handler_installed = true ∧
      s'.timer_ticks = s.timer_ticks ∧
      s'.last_tick = c ∧ s'.boot_tick = c ∧
      s'.cntp_tval = s.cntp_tval ∧ s'.cntp_ctl = s.cntp_ctl ∧
      s'.trace = s.trace ++
        [Event.log_info LogMsg.counter_frequency_mhz 1,
         Event.log_info LogMsg.timer_frequency_khz (f / 1000),
         Event.irq_install_handler]) := by
  have hfmod : f % WORD32 = f := Nat.mod_eq_of_lt hf32
  constructor
  · refine ⟨_, timer_init_periodic_of_pos TIMER_FREQ f c s hTF, ?_⟩
    rw [hfmod]
    refine ⟨rfl, hf, rfl, rfl, rfl, rfl, ?_⟩
    simp [emit, set_cntp_ctl, set_cntp_tval]
  · refine ⟨_, timer_init_dynamic_eq TIMER_FREQ f c s, ?_⟩
    rw [hfmod]
    refine ⟨rfl, hf, rfl, rfl, rfl, rfl, rfl, rfl, ?_⟩
    simp [emit]

/-- C14 at 62.5 MHz, `TIMER_FREQ = 100`, counter reading 77, on a core right
after bring-up, dynamic-tick build. -/
theorem timer_init_postcondition_witness :
    0 < 100 ∧ 0 < 62500000 ∧ 62500000 < WORD32 ∧
    ∃ s', timer_init Mode.dynamic 100 62500000 77 boot_state = some (s', 0) ∧
      s'.freq_hz = 62500000 ∧ 0 < s'.freq_hz ∧ s'.handler_installed = true ∧
      s'.timer_ticks = boot_state.timer_ticks ∧
      s'.last_tick = 77 ∧ s'.boot_tick = 77 ∧
      s'.cntp_tval = boot_state.cntp_tval ∧ s'.cntp_ctl = boot_state.cntp_ctl ∧
      s'.trace = boot_state.trace ++
        [Event.log_info LogMsg.counter_frequency_mhz 1,
         Event.log_info LogMsg.timer_frequency_khz (62500000 / 1000),
         Event.irq_install_handler] :=
  ⟨by decide, by decide, by decide,
    (timer_init_postcondition 100 62500000 77 boot_state (by decide) (by decide) (by decide)).2⟩

/-! ## C16: `check_ticks` twice at the same reading -/

theorem sub64_self (a : Nat) : sub64 a a = 0 := by
  unfold sub64
  have h : a % WORD64 < WORD64 := Nat.mod_lt _ WORD64_pos
  have h2 : a % WORD64 + (WORD64 - a % WORD64) = WORD64 := by omega
  rw [h2, Nat.mod_self]

/-- C16: for every state and every counter reading `curr` (any `freq_hz`, 0
included, whether or not `curr` is below `last_tick`), `check_ticks` returns,
and a second `check_ticks` at the same reading returns with `timer_ticks` and
`last_tick` exactly as the first left them (and `freq_hz` and the registers,
which neither call writes). -/
theorem check_ticks_idempotent (TIMER_FREQ : Nat) (s : TimerState) (curr : Nat) :
    ∃ s1 s2, check_ticks TIMER_FREQ s curr = some s1 ∧
      check_ticks TIMER_FREQ s1 curr = some s2 ∧
      s2.timer_ticks = s1.timer_ticks ∧ s2.last_tick = s1.last_tick ∧
      s2.freq_hz = s1.freq_hz ∧ s2.cntp_tval = s1.cntp_tval ∧ s2.cntp_ctl = s1.cntp_ctl := by
  rcases Nat.eq_zero_or_pos s.freq_hz with h0 | hpos
  · exact ⟨s, s, check_ticks_of_freq_zero _ _ _ h0, check_ticks_of_freq_zero _ _ _ h0,
      rfl, rfl, rfl, rfl, rfl⟩
  · by_cases hd : 0 < mul64 (sub64 curr s.last_tick) (TIMER_FREQ % WORD64) / s.freq_hz
    · have h1 := check_ticks_of_freq_pos TIMER_FREQ s curr hpos
      rw [if_pos hd] at h1
      have h2 := check_ticks_of_freq_pos TIMER_FREQ
        (emit Event.rmb { emit Event.rmb s with
          timer_ticks := add64 s.timer_ticks
            (mul64 (sub64 curr s.last_tick) (TIMER_FREQ % WORD64) / s.freq_hz),
          last_tick := curr }) curr hpos
      have hz : ¬ 0 < mul64 (sub64 curr curr) (TIMER_FREQ % WORD64) / s.freq_hz := by
        rw [sub64_self]
        unfold mul64
        simp
      simp only [emit] at h1 h2 hz
      rw [if_neg hz] at h2
      exact ⟨_, _, h1, h2, rfl, rfl, rfl, rfl, rfl⟩
    · have h1 := check_ticks_of_freq_pos TIMER_FREQ s curr hpos
      rw [if_neg hd] at h1
      have h2 := check_ticks_of_freq_pos TIMER_FREQ (emit Event.rmb s) curr hpos
      simp only [emit] at h1 h2 hd
      rw [if_neg hd] at h2
      exact ⟨_, _, h1, h2, rfl, rfl, rfl, rfl, rfl⟩

/-! ## C17: reconciliation never over-counts -/

/-- A prefix of a non-decreasing run of readings is one, and ends no later. -/
theorem chain_take : ∀ (cs : List Nat) (k c : Nat), List.Chain (· ≤ ·) c cs →
    List.Chain (· ≤ ·) c (cs.take k) ∧ (cs.take k).getLastD c ≤ cs.getLastD c := by
  intro cs
  induction cs with
  | nil =>
    intro k c _
    simp
  | cons a as ih =>
    intro k c h
    cases k with
    | zero =>
      exact ⟨List.Chain.nil, chain_le_getLastD (a :: as) c h⟩
    | succ n =>
      rw [List.chain_cons] at h
      obtain ⟨h1, h2⟩ := ih n a h.2
      simp only [List.take_succ_cons, List.getLastD_cons]
      exact ⟨List.Chain.cons h.1 h1, h2⟩

/-- Invariant of a run of reconciliations from the snapshot `c0` and the tick
count `t0`: the ticks credited so far, `D`, never exceed what the counter
advance up to the stored snapshot is worth. -/
theorem check_ticks_seq_no_overcount (TIMER_FREQ f c0 t0 : Nat) (hf : 0 < f) :
    ∀ (cs : List Nat) (s : TimerState) (c D : Nat),
      s.freq_hz = f → List.Chain (· ≤ ·) c cs → c0 ≤ s.last_tick → s.last_tick ≤ c →
      cs.getLastD c < WORD64 → (cs.getLastD c - c0) * TIMER_FREQ < WORD64 →
      s.timer_ticks = (t0 + D) % WORD64 → D * f ≤ (s.last_tick - c0) * TIMER_FREQ →
      ∃ s' D', check_ticks_seq TIMER_FREQ s cs = some s' ∧ s'.freq_hz = f ∧
        c0 ≤ s'.last_tick ∧ s'.last_tick ≤ cs.getLastD c ∧
        s'.timer_ticks = (t0 + D') % WORD64 ∧ D' * f ≤ (s'.last_tick - c0) * TIMER_FREQ := by
  intro cs
  induction cs with
  | nil =>
    intro s c D hfreq _ h0 hlc _ _ hticks hlow
    exact ⟨s, D, rfl, hfreq, h0, hlc, hticks, hlow⟩
  | cons a as ih =>
    intro s c D hfreq hchain h0 hlc hlast hmul hticks hlow
    rw [List.chain_cons] at hchain
    obtain ⟨hca, hchain'⟩ := hchain
    simp only [List.getLastD_cons] at hlast hmul ⊢
    have haLast : a ≤ as.getLastD a := chain_le_getLastD as a hchain'
    have hla : s.last_tick ≤ a := le_trans hlc hca
    have haW : a < WORD64 := lt_of_le_of_lt haLast hlast
    have hsplit : (a - c0) * TIMER_FREQ =
        (s.last_tick - c0) * TIMER_FREQ + (a - s.last_tick) * TIMER_FREQ := by
      rw [← Nat.add_mul]
      congr 1
      omega
    have hmono : (a - c0) * TIMER_FREQ ≤ (as.getLastD a - c0) * TIMER_FREQ :=
      Nat.mul_le_mul_right _ (by omega)
    have hB : (a - s.last_tick) * TIMER_FREQ < WORD64 := by omega
    have hdm := Nat.div_add_mod ((a - s.last_tick) * TIMER_FREQ) f
    have hfpos : 0 < s.freq_hz := by
      rw [hfreq]
      exact hf
    have hstep := check_ticks_of_freq_pos TIMER_FREQ s a hfpos
    rw [mul64_sub64_of_le TIMER_FREQ s.last_tick a hla haW hB, hfreq] at hstep
    simp only [check_ticks_seq, hstep]
    by_cases hd : 0 < (a - s.last_tick) * TIMER_FREQ / f
    · rw [if_pos hd]
      have hmul_d : (D + (a - s.last_tick) * TIMER_FREQ / f) * f =
          D * f + f * ((a - s.last_tick) * TIMER_FREQ / f) := by
        rw [Nat.add_mul, Nat.mul_comm f]
      apply ih _ a (D + (a - s.last_tick) * TIMER_FREQ / f)
      · exact hfreq
      · exact hchain'
      · show c0 ≤ a
        omega
      · exact le_refl a
      · exact hlast
      · exact hmul
      · show add64 s.timer_ticks ((a - s.last_tick) * TIMER_FREQ / f) =
          (t0 + (D + (a - s.last_tick) * TIMER_FREQ / f)) % WORD64
        unfold add64
        rw [hticks, Nat.mod_add_mod, Nat.add_assoc]
      · show (D + (a - s.last_tick) * TIMER_FREQ / f) * f ≤ (a - c0) * TIMER_FREQ
        omega
    · rw [if_neg hd]
      exact ih _ a D hfreq hchain' h0 hla hlast hmul hticks hlow

/-- C17: for `freq_hz > 0`, a state with `last_tick = c0` and
`timer_ticks = t0`, and non-decreasing 64-bit readings `c0 ≤ c1 ≤ ... ≤ cn`
with `(cn - c0) * TIMER_FREQ < 2^64`: after the first `k` calls of
`check_ticks`, for every `k`, the calls have returned, `c0 ≤ last_tick ≤ ck ≤
cn`, and `timer_ticks - t0` is at most
`(last_tick - c0) * TIMER_FREQ / freq_hz`, hence at most
`(cn - c0) * TIMER_FREQ / freq_hz`. The bound holds for the ticks credited,
`D` with `timer_ticks = (t0 + D) mod 2^64`, so it holds for the difference
whether or not the 64-bit tick count wrapped. The whole run is the case
`k = n`. -/
theorem check_ticks_seq_never_overcounts (TIMER_FREQ : Nat) (s : TimerState)
    (readings : List Nat) (hf : 0 < s.freq_hz) (ht : s.timer_ticks < WORD64)
    (hchain : List.Chain (· ≤ ·) s.last_tick readings)
    (hlast : readings.getLastD s.last_tick < WORD64)
    (hmul : (readings.getLastD s.last_tick - s.last_tick) * TIMER_FREQ < WORD64) :
    (∀ k, ∃ s', check_ticks_seq TIMER_FREQ s (readings.take k) = some s' ∧
      s.last_tick ≤ s'.last_tick ∧
      s'.last_tick ≤ (readings.take k).getLastD s.last_tick ∧
      (readings.take k).getLastD s.last_tick ≤ readings.getLastD s.last_tick ∧
      s'.timer_ticks - s.timer_ticks ≤
        (s'.last_tick - s.last_tick) * TIMER_FREQ / s.freq_hz ∧
      s'.timer_ticks - s.timer_ticks ≤
        (readings.getLastD s.last_tick - s.last_tick) * TIMER_FREQ / s.freq_hz ∧
      ∃ D, s'.timer_ticks = (s.timer_ticks + D) % WORD64 ∧
        D ≤ (s'.last_tick - s.last_tick) * TIMER_FREQ / s.freq_hz) ∧
    (∃ s', check_ticks_seq TIMER_FREQ s readings = some s' ∧
      s'.timer_ticks - s.timer_ticks ≤
        (readings.getLastD s.last_tick - s.last_tick) * TIMER_FREQ / s.freq_hz) := by
  have key : ∀ k, ∃ s', check_ticks_seq TIMER_FREQ s (readings.take k) = some s' ∧
      s.last_tick ≤ s'.last_tick ∧
      s'.last_tick ≤ (readings.take k).getLastD s.last_tick ∧
      (readings.take k).getLastD s.last_tick ≤ readings.getLastD s.last_tick ∧
      s'.timer_ticks - s.timer_ticks ≤
        (s'.last_tick - s.last_tick) * TIMER_FREQ / s.freq_hz ∧
      s'.timer_ticks - s.timer_ticks ≤
        (readings.getLastD s.last_tick - s.last_tick) * TIMER_FREQ / s.freq_hz ∧
      ∃ D, s'.timer_ticks = (s.timer_ticks + D) % WORD64 ∧
        D ≤ (s'.last_tick - s.last_tick) * TIMER_FREQ / s.freq_hz := by
    intro k
    obtain ⟨hck, hlek⟩ := chain_take readings k s.last_tick hchain
    have hmulk : ((readings.take k).getLastD s.last_tick - s.last_tick) * TIMER_FREQ < WORD64 :=
      lt_of_le_of_lt (Nat.mul_le_mul_right _ (by omega)) hmul
    obtain ⟨s', D, hrun, _, hc0, hle, hticks, hlow⟩ :=
      check_ticks_seq_no_overcount TIMER_FREQ s.freq_hz s.last_tick s.timer_ticks hf
        (readings.take k) s s.last_tick 0 rfl hck (le_refl _) (le_refl _)
        (lt_of_le_of_lt hlek hlast) hmulk
        (by rw [Nat.add_zero, Nat.mod_eq_of_lt ht]) (by simp)
    have hD : D ≤ (s'.last_tick - s.last_tick) * TIMER_FREQ / s.freq_hz :=
      (Nat.le_div_iff_mul_le hf).mpr hlow
    have hdiff : s'.timer_ticks - s.timer_ticks ≤ D := by
      have hmod : (s.timer_ticks + D) % WORD64 ≤ s.timer_ticks + D := Nat.mod_le _ _
      omega
    have hmono : (s'.last_tick - s.last_tick) * TIMER_FREQ / s.freq_hz ≤
        (readings.getLastD s.last_tick - s.last_tick) * TIMER_FREQ / s.freq_hz :=
      Nat.div_le_div_right (Nat.mul_le_mul_right _ (by omega))
    exact ⟨s', hrun, hc0, hle, hlek, le_trans hdiff hD, le_trans hdiff (le_trans hD hmono),
      D, hticks, hD⟩
  refine ⟨key, ?_⟩
  obtain ⟨s', hrun, _, _, _, _, hbound, _⟩ := key readings.length
  rw [List.take_length] at hrun
  exact ⟨s', hrun, hbound⟩

/-- C17 on the run of three readings 1249999 counter ticks apart at 62.5 MHz,
from `timer_ticks = 0`: after two of them and after all three. -/
theorem check_ticks_seq_never_overcounts_witness :
    (∃ s', check_ticks_seq 100 running_state ([1249999, 2499998, 3749997].take 2) = some s' ∧
      s'.timer_ticks - running_state.timer_ticks ≤
        (s'.last_tick - running_state.last_tick) * 100 / running_state.freq_hz ∧
      s'.last_tick ≤ ([1249999, 2499998, 3749997].take 2).getLastD running_state.last_tick) ∧
    (∃ s', check_ticks_seq 100 running_state [1249999, 2499998, 3749997] = some s' ∧
      s'.timer_ticks - running_state.timer_ticks ≤
        ([1249999, 2499998, 3749997].getLastD running_state.last_tick -
          running_state.last_tick) * 100 / running_state.freq_hz) := by
  have h := check_ticks_seq_never_overcounts 100 running_state [1249999, 2499998, 3749997]
    (by decide) (by decide) (by simp [running_state, boot_state]) (by decide) (by decide)
  obtain ⟨s', hrun, _, hle, _, hb, _⟩ := h.1 2
  exact ⟨⟨s', hrun, hb, hle⟩, h.2⟩

/-! ## C18: the interval `restart_periodic_timer` programs -/

/-- C18: for every `freq_hz` and `TIMER_FREQ > 0`, `restart_periodic_timer`
returns with the compare interval `I = freq_hz / TIMER_FREQ` and the control
register 1, and `I * TIMER_FREQ ≤ freq_hz < (I + 1) * TIMER_FREQ`, so `I = 0`
exactly when `freq_hz < TIMER_FREQ`. Whenever `I > 0`, the number of firings
while the counter advances by `N * freq_hz` is `N * freq_hz / I`, which is at
least `N * TIMER_FREQ`, and it equals `N * TIMER_FREQ` for every `N` if and
only if `TIMER_FREQ` divides `freq_hz`. -/
theorem restart_periodic_timer_interval (TIMER_FREQ : Nat) (s : TimerState)
    (hTF : 0 < TIMER_FREQ) :
    ∃ s', restart_periodic_timer TIMER_FREQ s = some s' ∧
      s'.cntp_tval = s.freq_hz / TIMER_FREQ ∧ s'.cntp_ctl = 1 ∧
      s'.cntp_tval * TIMER_FREQ ≤ s.freq_hz ∧
      s.freq_hz < (s'.cntp_tval + 1) * TIMER_FREQ ∧
      (s'.cntp_tval = 0 ↔ s.freq_hz < TIMER_FREQ) ∧
      (0 < s'.cntp_tval →
        (∀ N, periodic_firings s' (N * s.freq_hz) = some (N * s.freq_hz / s'.cntp_tval) ∧
          N * TIMER_FREQ ≤ N * s.freq_hz / s'.cntp_tval) ∧
        ((∀ N, N * s.freq_hz / s'.cntp_tval = N * TIMER_FREQ) ↔ TIMER_FREQ ∣ s.freq_hz)) := by
  refine ⟨_, restart_periodic_timer_of_pos TIMER_FREQ s hTF, rfl, rfl, ?_⟩
  show s.freq_hz / TIMER_FREQ * TIMER_FREQ ≤ s.freq_hz ∧
    s.freq_hz < (s.freq_hz / TIMER_FREQ + 1) * TIMER_FREQ ∧
    (s.freq_hz / TIMER_FREQ = 0 ↔ s.freq_hz < TIMER_FREQ) ∧
    (0 < s.freq_hz / TIMER_FREQ →
      (∀ N, periodic_firings
          (set_cntp_ctl 1 (set_cntp_tval (s.freq_hz / TIMER_FREQ) s)) (N * s.freq_hz) =
            some (N * s.freq_hz / (s.freq_hz / TIMER_FREQ)) ∧
        N * TIMER_FREQ ≤ N * s.freq_hz / (s.freq_hz / TIMER_FREQ)) ∧
      ((∀ N, N * s.freq_hz / (s.freq_hz / TIMER_FREQ) = N * TIMER_FREQ) ↔
        TIMER_FREQ ∣ s.freq_hz))
  have hlow : s.freq_hz / TIMER_FREQ * TIMER_FREQ ≤ s.freq_hz := Nat.div_mul_le_self _ _
  have hup : s.freq_hz < (s.freq_hz / TIMER_FREQ + 1) * TIMER_FREQ := by
    have hdm := Nat.div_add_mod s.freq_hz TIMER_FREQ
    have hr := Nat.mod_lt s.freq_hz hTF
    rw [Nat.add_mul, Nat.one_mul, Nat.mul_comm (s.freq_hz / TIMER_FREQ)]
    omega
  refine ⟨hlow, hup, ?_, ?_⟩
  · constructor
    · intro h0
      rw [h0, Nat.zero_add, Nat.one_mul] at hup
      exact hup
    · intro hlt
      exact Nat.div_eq_of_lt hlt
  · intro hI
    refine ⟨fun N => ⟨?_, ?_⟩, ?_⟩
    · show (if (1 : Nat) = 1 then udiv (N * s.freq_hz) (s.freq_hz / TIMER_FREQ) else some 0) = _
      rw [if_pos rfl, udiv_of_pos _ _ hI]
    · rw [Nat.le_div_iff_mul_le hI, Nat.mul_assoc]
      exact Nat.mul_le_mul_left _ (Nat.mul_div_le s.freq_hz TIMER_FREQ)
    · constructor
      · intro hall
        have h1 := hall (s.freq_hz / TIMER_FREQ)
        rw [Nat.mul_comm (s.freq_hz / TIMER_FREQ) s.freq_hz, Nat.mul_div_cancel _ hI] at h1
        exact ⟨s.freq_hz / TIMER_FREQ, h1.trans (Nat.mul_comm _ _)⟩
      · intro hdvd N
        obtain ⟨q, hq⟩ := hdvd
        have hdiv : s.freq_hz / TIMER_FREQ = q := by
          rw [hq, Nat.mul_div_cancel_left _ hTF]
        have hqpos : 0 < q := by
          rw [← hdiv]
          exact hI
        rw [hdiv, hq, ← Nat.mul_assoc, Nat.mul_div_cancel _ hqpos]

/-- C18 at 32768 Hz with `TIMER_FREQ = 100`: the interval is 327,
`327 * 100 ≤ 32768 < 328 * 100`, and ten seconds of counter give 1002 firings,
at least `10 * 100`. -/
theorem restart_periodic_timer_interval_witness :
    0 < 100 ∧
    ∃ s', restart_periodic_timer 100 { boot_state with freq_hz := 32768 } = some s' ∧
      s'.cntp_tval = 327 ∧ s'.cntp_ctl = 1 ∧
      s'.cntp_tval * 100 ≤ 32768 ∧ 32768 < (s'.cntp_tval + 1) * 100 ∧
      periodic_firings s' (10 * 32768) = some 1002 ∧ 10 * 100 ≤ 1002 := by
  obtain ⟨s', h, htv, hctl, hlow, hup, _, hfire⟩ :=
    restart_periodic_timer_interval 100 { boot_state with freq_hz := 32768 } (by decide)
  have htv' : s'.cntp_tval = 327 := by
    rw [htv]
    decide
  have h10 := (hfire (by rw [htv']; decide)).1 10
  rw [htv'] at h10
  exact ⟨by decide, s', h, htv', hctl, hlow, hup, h10.1, by decide⟩

/-! ## C15: `timer_wait` and the reconciliation -/

/-- The idle loop starts with the comparison of the value of `timer_ticks` it
finds, and records nothing but comparisons, drains and `PAUSE`. -/
theorem idle_loop_first_event (ext : Extern) (eticks : Nat) :
    ∀ (fuel : Nat) (s s' : TimerState), idle_loop ext eticks fuel s = some s' →
      ∃ rest, s'.trace = s.trace ++ Event.compare_ticks Site.loop_head s.timer_ticks :: rest ∧
        ∀ e ∈ rest, is_wait_event eticks e = true := by
  intro fuel
  induction fuel with
  | zero =>
    intro s s' hs
    simp [idle_loop] at hs
  | succ n ih =>
    intro s s' hs
    simp only [idle_loop] at hs
    split at hs
    · split at hs
      · cases hs
        refine ⟨[Event.check_workqueues, Event.compare_ticks Site.recheck
          (ext.check_workqueues (compare Site.loop_head s)).timer_ticks], ?_, ?_⟩
        · simp [compare, emit, call]
        · intro e he
          simp only [List.mem_cons, List.mem_singleton, List.not_mem_nil, or_false] at he
          rcases he with h | h <;> rw [h] <;> rfl
      · obtain ⟨rest, htrace, hall⟩ := ih _ _ hs
        refine ⟨[Event.check_workqueues, Event.compare_ticks Site.recheck
            (ext.check_workqueues (compare Site.loop_head s)).timer_ticks, Event.pause,
            Event.compare_ticks Site.loop_head
              (call Event.pause ext.pause (compare Site.recheck
                (call Event.check_workqueues ext.check_workqueues
                  (compare Site.loop_head s)))).timer_ticks] ++ rest, ?_, ?_⟩
        · rw [htrace]
          simp [compare, emit, call]
        · intro e he
          rcases List.mem_append.mp he with h | h
          · simp only [List.mem_cons, List.mem_singleton, List.not_mem_nil, or_false] at h
            rcases h with h | h | h | h <;> rw [h] <;> rfl
          · exact hall e h
    · cases hs
      refine ⟨[], ?_, ?_⟩
      · simp [compare, emit]
      · intro e he
        cases he

/-- With collaborators that change nothing, the idle loop changes neither
`timer_ticks` nor `last_tick`. -/
theorem idle_loop_quiet (eticks : Nat) :
    ∀ (fuel : Nat) (s s' : TimerState), idle_loop Extern.quiet eticks fuel s = some s' →
      s'.timer_ticks = s.timer_ticks ∧ s'.last_tick = s.last_tick := by
  intro fuel
  induction fuel with
  | zero =>
    intro s s' hs
    simp [idle_loop] at hs
  | succ n ih =>
    intro s s' hs
    simp only [idle_loop] at hs
    split at hs
    · split at hs
      · cases hs
        exact ⟨rfl, rfl⟩
      · have h := ih _ _ hs
        exact h
    · cases hs
      exact ⟨rfl, rfl⟩

/-- C15, the claim as stated fails. On a dynamic-tick core at 62.5 MHz with
`timer_ticks = 0`, `last_tick = 0` and the counter at 6250000, a reconciliation
would set `timer_ticks = 10`. `timer_wait(5)` of a task that is not idle
computes `eticks = 5` from the stored 0 and compares the stored 0 first, with
no call before either. With a work-queue drain that reconciles, the second
comparison then sees 10 and the wait returns at once; with collaborators that
change nothing it compares 0 twice and arms `set_timer(5)`. -/
theorem timer_wait_uses_unreconciled_ticks :
    (∃ s1, check_ticks 100 running_state 6250000 = some s1 ∧ s1.timer_ticks = 10) ∧
    eticks_of running_state 5 = 5 ∧
    (∃ s', timer_wait (Extern.reconciling 100 6250000) 0 TaskStatus.other 5 running_state
        = some (s', 0) ∧
      s'.trace = [Event.compare_ticks Site.before_drain 0, Event.check_workqueues,
        Event.compare_ticks Site.after_drain 10]) ∧
    (∃ s', timer_wait Extern.quiet 0 TaskStatus.other 5 running_state = some (s', 0) ∧
      s'.timer_ticks = 0 ∧ s'.last_tick = 0 ∧
      s'.trace = [Event.compare_ticks Site.before_drain 0, Event.check_workqueues,
        Event.compare_ticks Site.after_drain 0, Event.set_timer 5, Event.reschedule]) := by
  refine ⟨?_, by decide, ?_, ?_⟩
  · rw [check_ticks_of_freq_pos 100 running_state 6250000 (by decide)]
    exact ⟨_, rfl, by decide⟩
  · exact ⟨_, rfl, by decide⟩
  · exact ⟨_, rfl, by decide, by decide, by decide⟩

/-- C15, amended: `timer_wait`, which is the same code in both builds, never
runs `check_ticks` itself. It computes the target
`eticks = (stored timer_ticks at entry + ticks) mod 2^64` with no call before,
and its first comparison reads the stored `timer_ticks` with no call before it
either. Whenever it returns, all it has recorded after that are comparisons of
the stored `timer_ticks` and calls of `check_workqueues`, `PAUSE`,
`set_timer(eticks)` and `reschedule` (no read barrier, which a reconciliation
issues), in these orders. A task that is not idle: the comparison alone when it
reads `eticks` or more; else comparison, `check_workqueues`, comparison, and
when this one still reads less than `eticks`, `set_timer(eticks)` and
`reschedule`. The idle task: rounds of loop-condition comparison,
`check_workqueues`, recheck comparison, `PAUSE`, ended by a loop-condition
comparison, or by one followed by `check_workqueues` and the recheck
comparison. So each comparison of lines 125 and 133 directly follows a
`check_workqueues` call, and a compared value is reconciled only as far as
that collaborator reconciles it: with collaborators that change nothing,
`timer_ticks` and `last_tick` are at return what they were at entry, whatever
the hardware counter reads. -/
theorem timer_wait_makes_no_reconciliation (ext : Extern) (ticks : Nat) (s : TimerState) :
    (∀ (fuel : Nat) (status : TaskStatus) (s' : TimerState) (r : Int),
      timer_wait ext fuel status ticks s = some (s', r) →
        ∃ site rest,
          s'.trace = s.trace ++ Event.compare_ticks site (ext.irq s).timer_ticks :: rest ∧
          ∀ e ∈ rest, is_wait_event ((s.timer_ticks + ticks % WORD32) % WORD64) e = true) ∧
    (∀ (fuel : Nat) (s' : TimerState) (r : Int),
      timer_wait ext fuel TaskStatus.other ticks s = some (s', r) →
        ((s.timer_ticks + ticks % WORD32) % WORD64 ≤ (ext.irq s).timer_ticks ∧
          s'.trace = s.trace ++
            [Event.compare_ticks Site.before_drain (ext.irq s).timer_ticks]) ∨
        ((ext.irq s).timer_ticks < (s.timer_ticks + ticks % WORD32) % WORD64 ∧
          (s.timer_ticks + ticks % WORD32) % WORD64 ≤ (ext.check_workqueues
            (compare Site.before_drain { ext.irq s with trace := s.trace })).timer_ticks ∧
          s'.trace = s.trace ++
            [Event.compare_ticks Site.before_drain (ext.irq s).timer_ticks,
             Event.check_workqueues,
             Event.compare_ticks Site.after_drain
               (ext.check_workqueues
                 (compare Site.before_drain
                   { ext.irq s with trace := s.trace })).timer_ticks]) ∨
        ((ext.irq s).timer_ticks < (s.timer_ticks + ticks % WORD32) % WORD64 ∧
          (ext.check_workqueues
            (compare Site.before_drain { ext.irq s with trace := s.trace })).timer_ticks
              < (s.timer_ticks + ticks % WORD32) % WORD64 ∧
          s'.trace = s.trace ++
            [Event.compare_ticks Site.before_drain (ext.irq s).timer_ticks,
             Event.check_workqueues,
             Event.compare_ticks Site.after_drain
               (ext.check_workqueues
                 (compare Site.before_drain
                   { ext.irq s with trace := s.trace })).timer_ticks,
             Event.set_timer ((s.timer_ticks + ticks % WORD32) % WORD64),
             Event.reschedule])) ∧
    (∀ (fuel : Nat) (s' : TimerState) (r : Int),
      timer_wait ext fuel TaskStatus.idle ticks s = some (s', r) →
        ∃ (rounds : List (Nat × Nat)) (final : List Event),
          s'.trace = s.trace ++ rounds.flatMap idle_iteration ++ final ∧
          (∀ vw ∈ rounds, vw.1 < (s.timer_ticks + ticks % WORD32) % WORD64 ∧
            vw.2 < (s.timer_ticks + ticks % WORD32) % WORD64) ∧
          (s.timer_ticks + ticks % WORD32) % WORD64 ≤ s'.timer_ticks ∧
          (final = [Event.compare_ticks Site.loop_head s'.timer_ticks] ∨
            ∃ v, v < (s.timer_ticks + ticks % WORD32) % WORD64 ∧
              final = [Event.compare_ticks Site.loop_head v, Event.check_workqueues,
                Event.compare_ticks Site.recheck s'.timer_ticks])) ∧
    (∀ (fuel : Nat) (status : TaskStatus) (s' : TimerState) (r : Int),
      timer_wait Extern.quiet fuel status ticks s = some (s', r) →
        s'.timer_ticks = s.timer_ticks ∧ s'.last_tick = s.last_tick) := by
  have hE : eticks_of s ticks = (s.timer_ticks + ticks % WORD32) % WORD64 := rfl
  have hother : ∀ (fuel : Nat) (s' : TimerState) (r : Int),
      timer_wait ext fuel TaskStatus.other ticks s = some (s', r) →
        ((s.timer_ticks + ticks % WORD32) % WORD64 ≤ (ext.irq s).timer_ticks ∧
          s'.trace = s.trace ++
            [Event.compare_ticks Site.before_drain (ext.irq s).timer_ticks]) ∨
        ((ext.irq s).timer_ticks < (s.timer_ticks + ticks % WORD32) % WORD64 ∧
          (s.timer_ticks + ticks % WORD32) % WORD64 ≤ (ext.check_workqueues
            (compare Site.before_drain { ext.irq s with trace := s.trace })).timer_ticks ∧
          s'.trace = s.trace ++
            [Event.compare_ticks Site.before_drain (ext.irq s).timer_ticks,
             Event.check_workqueues,
             Event.compare_ticks Site.after_drain
               (ext.check_workqueues
                 (compare Site.before_drain
                   { ext.irq s with trace := s.trace })).timer_ticks]) ∨
        ((ext.irq s).timer_ticks < (s.timer_ticks + ticks % WORD32) % WORD64 ∧
          (ext.check_workqueues
            (compare Site.before_drain { ext.irq s with trace := s.trace })).timer_ticks
              < (s.timer_ticks + ticks % WORD32) % WORD64 ∧
          s'.trace = s.trace ++
            [Event.compare_ticks Site.before_drain (ext.irq s).timer_ticks,
             Event.check_workqueues,
             Event.compare_ticks Site.after_drain
               (ext.check_workqueues
                 (compare Site.before_drain
                   { ext.irq s with trace := s.trace })).timer_ticks,
             Event.set_timer ((s.timer_ticks + ticks % WORD32) % WORD64),
             Event.reschedule]) := by
    intro fuel s' r h
    rw [timer_wait_other_eq] at h
    split at h
    · rename_i h1
      split at h
      · rename_i h2
        cases h
        refine Or.inr (Or.inr ⟨h1, h2, ?_⟩)
        simp [compare, emit, call, hE]
      · rename_i h2
        cases h
        refine Or.inr (Or.inl ⟨h1, Nat.le_of_not_lt h2, ?_⟩)
        simp [compare, emit, call]
    · rename_i h1
      cases h
      refine Or.inl ⟨Nat.le_of_not_lt h1, ?_⟩
      simp [compare, emit]
  refine ⟨?_, hother, ?_, ?_⟩
  · intro fuel status s' r h
    cases status with
    | idle =>
      simp only [timer_wait] at h
      split at h
      · cases h
      · rename_i s1 h1
        cases h
        obtain ⟨rest, htrace, hall⟩ := idle_loop_first_event ext _ fuel _ _ h1
        rw [hE] at hall
        exact ⟨Site.loop_head, rest, htrace, hall⟩
    | other =>
      rcases hother fuel s' r h with ⟨_, ht⟩ | ⟨_, _, ht⟩ | ⟨_, _, ht⟩
      · exact ⟨Site.before_drain, [], ht, fun e he => by cases he⟩
      · refine ⟨Site.before_drain, _, ht, ?_⟩
        intro e he
        simp only [List.mem_cons, List.mem_singleton, List.not_mem_nil, or_false] at he
        rcases he with h | h <;> rw [h] <;> rfl
      · refine ⟨Site.before_drain, _, ht, ?_⟩
        intro e he
        simp only [List.mem_cons, List.mem_singleton, List.not_mem_nil, or_false] at he
        rcases he with h | h | h | h <;> rw [h] <;> simp [is_wait_event]
  · intro fuel s' r h
    simp only [timer_wait] at h
    split at h
    · cases h
    · rename_i s1 h1
      cases h
      obtain ⟨hge, rounds, final, htrace, hall, hfinal⟩ := idle_loop_trace ext _ fuel _ _ h1
      rw [hE] at hge hall hfinal
      exact ⟨rounds, final, htrace, hall, hge, hfinal⟩
  · intro fuel status s' r h
    cases status with
    | idle =>
      simp only [timer_wait] at h
      split at h
      · cases h
      · rename_i s1 h1
        cases h
        have h2 := idle_loop_quiet _ fuel _ _ h1
        exact h2
    | other =>
      rw [timer_wait_other_eq] at h
      split at h
      · split at h
        · cases h
          constructor <;> simp [compare, emit, call, Extern.quiet]
        · cases h
          constructor <;> simp [compare, emit, call, Extern.quiet]
      · cases h
        constructor <;> simp [compare, emit, Extern.quiet]

/-- C15, the amended statement on a core that enters with `timer_ticks = 1000`
and `last_tick = 0` while the counter reads 6250000 (10 ticks not yet
credited), with a drain that reconciles: `timer_wait(5)` of a task that is not
idle takes the target 1005 from the stored 1000, compares 1000, drains,
compares 1010 and returns. -/
theorem timer_wait_makes_no_reconciliation_witness :
    (ticked_state.timer_ticks + 5 % WORD32) % WORD64 = 1005 ∧
    ∃ s', timer_wait (Extern.reconciling 100 6250000) 0 TaskStatus.other 5 ticked_state
        = some (s', 0) ∧
      s'.trace = [Event.compare_ticks Site.before_drain 1000, Event.check_workqueues,
        Event.compare_ticks Site.after_drain 1010] ∧
      ∃ site rest,
        s'.trace = ticked_state.trace ++
          Event.compare_ticks site
            ((Extern.reconciling 100 6250000).irq ticked_state).timer_ticks :: rest ∧
        ∀ e ∈ rest, is_wait_event ((ticked_state.timer_ticks + 5 % WORD32) % WORD64) e = true := by
  obtain ⟨s', hs'⟩ : ∃ s', timer_wait (Extern.reconciling 100 6250000) 0 TaskStatus.other 5
      ticked_state = some (s', 0) := ⟨_, rfl⟩
  have hval : (timer_wait (Extern.reconciling 100 6250000) 0 TaskStatus.other 5
      ticked_state).map (fun x => x.1.trace) =
        some [Event.compare_ticks Site.before_drain 1000, Event.check_workqueues,
          Event.compare_ticks Site.after_drain 1010] := by
    decide
  rw [hs'] at hval
  simp only [Option.map_some', Option.some.injEq] at hval
  exact ⟨by decide, s', hs', hval,
    (timer_wait_makes_no_reconciliation (Extern.reconciling 100 6250000) 5 ticked_state).1
      0 TaskStatus.other s' 0 hs'⟩

end Timer
